import Mathlib

/-!
Verification development for the Browser-virtual-kernel repository.

The repository ships two kernel implementations:

* `KernelA` below embeds the kernel of `src/unnamed/part_001` (the file that
  begins `// kernel.js` right after the embedded `main.js`): a cooperative
  scheduler that resumes exactly one process per tick, a VFS with positional
  file descriptors, port IPC with receive timeouts, and a reaping
  `cleanupTerminated`.
* `KernelB` below embeds `src/kernel.js` (the "full version"): its `tick`
  resumes every READY/RUNNING process, it catches routine crashes inside
  `_runProcess`, it has a `KILL` syscall, and its `cleanupTerminated` only
  filters the process table.

JavaScript values flowing through syscalls are modelled by the `Value`
inductive; machine integers are `Int`/`Nat` (the kernels never overflow);
JS `Map`s are association lists in insertion order (`lookupL`, `setL`,
`eraseL` mirror `Map.get`, `Map.set`, `Map.delete`); the ambient wall clock
`Date.now()` is a state field `wallNow` that steps never change.
-/

/-- Process states, from `ProcessState` in both kernel files. -/
inductive PState where
  | ready
  | running
  | blocked
  | terminated
deriving DecidableEq, Repr

/-- Block reasons used by both kernels: "sleep", "recv", "recv_port"
(absence is JS `null`, modelled by wrapping in `Option`). -/
inductive BlockReason where
  | sleep
  | recv
  | recv_port
deriving DecidableEq, Repr

/-- Row of `getPortsTable()` (both kernels): `{port, ownerPid, queueLength}`.
Kernel A's port key is a string, kernel B's a number; we store the printed key. -/
structure PortRow where
  port : String
  ownerPid : Nat
  queueLength : Nat
deriving DecidableEq, Repr

/-- Row of `listFiles()` (both kernels): `{path, size, preview}`. -/
structure FileRow where
  path : String
  size : Nat
  preview : String
deriving DecidableEq, Repr

/-- Row of kernel B's `getProcessTable()`:
`{pid, name, priority, state, blockReason, exitCode, spawnTime}`. -/
structure ProcRowB where
  pid : Nat
  name : String
  priority : Int
  state : PState
  blockReason : Option BlockReason
  exitCode : Option Int
  spawnTime : Int
deriving DecidableEq, Repr

mutual
/-- JavaScript values that cross the syscall boundary in either kernel:
`null`, `undefined`, booleans, numbers, strings, the three message record
shapes, and the snapshot tables returned by `KINFO` / `PS` / `LIST_PORTS` /
`LIST_FILES` / `VFS`. -/
inductive Value where
  | vnull
  | vundef
  | vbool (b : Bool)
  | vint (n : Int)
  | vstr (s : String)
  | vmailMsg (m : MailMsg)
  | vportMsg (m : PortMsg)
  | vmsgB (m : MsgB)
  | vprocRowsA (rows : List ProcRowA)
  | vprocRowsB (rows : List ProcRowB)
  | vportRows (rows : List PortRow)
  | vfileRows (rows : List FileRow)

/-- Kernel A mailbox message `{from, payload, time}` (JS field `from` is
`fromPid` here because `from` is a Lean keyword). -/
inductive MailMsg where
  | mk (fromPid : Nat) (payload : Value) (time : Nat)

/-- Kernel A port message `{fromPid, payload, time}`. -/
inductive PortMsg where
  | mk (fromPid : Nat) (payload : Value) (time : Nat)

/-- Kernel B message `{fromPid, payload}` (used for both mailboxes and ports). -/
inductive MsgB where
  | mk (fromPid : Nat) (payload : Value)

/-- Row of kernel A's `getProcessTable()`; it includes `lastSyscallResult`,
hence the mutual definition with `Value`. -/
inductive ProcRowA where
  | mk (pid : Nat) (name : String) (priority : Int) (state : PState)
      (blockReason : Option BlockReason) (wakeTime : Option Nat)
      (exitCode : Option Int) (lastSyscallResult : Value) (spawnTime : Nat)
end

def MailMsg.fromPid : MailMsg → Nat
  | .mk f _ _ => f

def MailMsg.payload : MailMsg → Value
  | .mk _ p _ => p

def MailMsg.time : MailMsg → Nat
  | .mk _ _ t => t

def PortMsg.fromPid : PortMsg → Nat
  | .mk f _ _ => f

def PortMsg.payload : PortMsg → Value
  | .mk _ p _ => p

def PortMsg.time : PortMsg → Nat
  | .mk _ _ t => t

def MsgB.fromPid : MsgB → Nat
  | .mk f _ => f

def MsgB.payload : MsgB → Value
  | .mk _ p => p

/-- JS truthiness of a `Value` (`null`, `undefined`, `false`, `0`, `""` are
falsy; every object is truthy). -/
def Value.truthy : Value → Bool
  | .vnull => false
  | .vundef => false
  | .vbool b => b
  | .vint n => n ≠ 0
  | .vstr s => s ≠ ""
  | _ => true

/-- Whether a value is JS `null` or `undefined` (the `??` test). -/
def Value.isNullish : Value → Bool
  | .vnull => true
  | .vundef => true
  | _ => false

/-- JS `String(v)` for the values above; records stringify to
`[object Object]` and arrays join their elements with commas. -/
def Value.jsToString : Value → String
  | .vnull => "null"
  | .vundef => "undefined"
  | .vbool true => "true"
  | .vbool false => "false"
  | .vint n => toString n
  | .vstr s => s
  | .vmailMsg _ => "[object Object]"
  | .vportMsg _ => "[object Object]"
  | .vmsgB _ => "[object Object]"
  | .vprocRowsA rows => String.intercalate "," (rows.map fun _ => "[object Object]")
  | .vprocRowsB rows => String.intercalate "," (rows.map fun _ => "[object Object]")
  | .vportRows rows => String.intercalate "," (rows.map fun _ => "[object Object]")
  | .vfileRows rows => String.intercalate "," (rows.map fun _ => "[object Object]")

/-! ### Association lists standing in for JS `Map`

JS `Map` preserves insertion order; `set` overwrites in place or appends,
`delete` removes the entry, `get` returns the value or `undefined`. -/

/-- `Map.get`: first binding of the key, if any. -/
def lookupL {α β : Type} [DecidableEq α] : List (α × β) → α → Option β
  | [], _ => none
  | (k, v) :: rest, key => if k = key then some v else lookupL rest key

/-- `Map.set`: overwrite the first binding in place, else append. -/
def setL {α β : Type} [DecidableEq α] : List (α × β) → α → β → List (α × β)
  | [], key, v => [(key, v)]
  | (k, w) :: rest, key, v =>
    if k = key then (k, v) :: rest else (k, w) :: setL rest key v

/-- `Map.delete`: remove the first binding of the key. -/
def eraseL {α β : Type} [DecidableEq α] : List (α × β) → α → List (α × β)
  | [], _ => []
  | (k, v) :: rest, key =>
    if k = key then rest else (k, v) :: eraseL rest key

theorem lookupL_setL_self {α β : Type} [DecidableEq α]
    (l : List (α × β)) (k : α) (v : β) : lookupL (setL l k v) k = some v := by
  induction l with
  | nil => simp [setL, lookupL]
  | cons hd tl ih =>
    obtain ⟨k', v'⟩ := hd
    by_cases h : k' = k <;> simp [setL, lookupL, h, ih]

theorem lookupL_setL_other {α β : Type} [DecidableEq α]
    (l : List (α × β)) (k k' : α) (v : β) (h : k ≠ k') :
    lookupL (setL l k v) k' = lookupL l k' := by
  induction l with
  | nil => simp [setL, lookupL, h]
  | cons hd tl ih =>
    obtain ⟨k₀, v₀⟩ := hd
    by_cases h₀ : k₀ = k <;> by_cases h₁ : k₀ = k' <;>
      simp_all [setL, lookupL]

theorem lookupL_none_setL_append {α β : Type} [DecidableEq α]
    (l : List (α × β)) (k : α) (v : β) (h : lookupL l k = none) :
    setL l k v = l ++ [(k, v)] := by
  induction l with
  | nil => simp [setL]
  | cons hd tl ih =>
    obtain ⟨k₀, v₀⟩ := hd
    by_cases h₀ : k₀ = k
    · simp [lookupL, h₀] at h
    · simp [lookupL, h₀] at h
      simp [setL, h₀, ih h]

theorem eraseL_append_singleton {α β : Type} [DecidableEq α]
    (l : List (α × β)) (k : α) (v : β) (h : lookupL l k = none) :
    eraseL (l ++ [(k, v)]) k = l := by
  induction l with
  | nil => simp [eraseL]
  | cons hd tl ih =>
    obtain ⟨k₀, v₀⟩ := hd
    by_cases h₀ : k₀ = k
    · simp [lookupL, h₀] at h
    · simp [lookupL, h₀] at h
      simp [eraseL, h₀, ih h]

/-! ## Kernel A — the kernel of `src/unnamed/part_001`

Embeds the `Kernel` class that starts at the `// kernel.js` header of
`src/unnamed/part_001` (process table, mailboxes, VFS with positional file
descriptors, string-normalized ports with receive timeouts, single-process
priority tick). -/

namespace KernelA

/-- Syscall requests produced by `_createSyscalls` in `src/unnamed/part_001`.
Optional JS arguments (`req.ms ?? 0`, `req.n ?? null`, `req.code ?? 0`,
`req.from ?? null`, `priority ?? 1`) are `Option`s; `UNKNOWN` stands for a
yielded object whose `type` string matches no case (handled by `default`). -/
inductive SyscallReq where
  | SLEEP (ms : Option Nat)
  | LOG (msg : Value)
  | GETPID
  | SEND (toPid : Nat) (message : Value)
  | RECV (fromPid : Option Nat)
  | OPEN (path : String) (mode : String)
  | READ (fd : Nat) (n : Option Nat)
  | WRITE (fd : Nat) (data : Value)
  | CLOSE (fd : Nat)
  | EXEC (programName : String) (args : List Value)
  | EXIT (code : Option Int)
  | HEAP_SET (key : String) (value : Value)
  | HEAP_GET (key : String)
  | LISTEN (port : Int)
  | UNLISTEN (port : Int)
  | SEND_PORT (port : Int) (payload : Value)
  | RECV_PORT (port : Int) (timeoutMs : Option Nat)
  | SPAWN (programName : String) (args : List Value) (priority : Option Int)
  | KINFO (kind : String)
  | UNKNOWN (tag : String)

/-- A value yielded by a routine: either a recognizable syscall request
(an object with a `type`) or any other value (`tick` treats the latter as a
cooperative yield). -/
inductive Yielded where
  | req (r : SyscallReq)
  | raw (v : Value)

mutual
/-- A resumable routine (JS generator): resuming with an injected value
yields the next request, completes, or throws. -/
inductive Routine where
  | mk (step : Value → StepResult)

/-- Outcome of one `iterator.next(value)` call. -/
inductive StepResult where
  | yields (y : Yielded) (k : Routine)
  | done (v : Value)
  | crash (err : String)
end

/-- Run one resume step of a routine. -/
def Routine.step : Routine → Value → StepResult
  | .mk f => f

/-- File-descriptor table entries: the preallocated standard streams and
open files `{type: "file", path, pos, mode}`. -/
inductive FdEntry where
  | stdin
  | stdout
  | stderr
  | file (path : String) (pos : Nat) (mode : String)
deriving DecidableEq, Repr

/-- Process control block, mirroring the object built in `spawn`. -/
structure PCB where
  pid : Nat
  name : String
  priority : Int
  routine : Routine
  state : PState
  wakeTime : Option Nat
  blockReason : Option BlockReason
  waitFrom : Option Nat
  waitPort : Option String
  waitTimeoutAt : Option Nat
  lastSyscallResult : Value
  exitCode : Option Int
  fdTable : List (Nat × FdEntry)
  nextFd : Nat
  heap : List (String × Value)
  spawnTime : Nat

/-- A port registry entry `{ownerPid, queue}`. -/
structure PortEntry where
  ownerPid : Nat
  queue : List PortMsg

/-- A kernel log entry `{time, pid, msg}`. -/
structure LogEntry where
  time : Nat
  pid : Nat
  msg : Value

/-- The whole kernel state.  `globalNextPid` embeds the module-level
`GLOBAL_NEXT_PID` counter; `wallNow` stands for the ambient `Date.now()`. -/
structure State where
  tickMs : Nat
  time : Nat
  processes : List PCB
  mailboxes : List (Nat × List MailMsg)
  vfs : List (String × String)
  programs : List (String × (List Value → Routine))
  ports : List (String × PortEntry)
  logs : List LogEntry
  globalNextPid : Nat
  wallNow : Nat

/-- `_normalizePortKey`: `String(port)`. -/
def normalizePortKey (port : Int) : String := toString port

/-- Mutating a PCB that lives in `this.processes`: JS mutates the object in
place; here we rewrite every list entry carrying the pid (pids are unique in
every reachable state). -/
def updA (s : State) (pid : Nat) (f : PCB → PCB) : State :=
  {s with processes := s.processes.map fun p => if p.pid = pid then f p else p}

/-- `this.processes.find`-style lookup (first PCB with the pid). -/
def findProc (s : State) (pid : Nat) : Option PCB :=
  s.processes.find? fun p => p.pid = pid

/-- `_tryDeliverMessage(pcb)`: pop the first message of the caller's mailbox
that passes the `waitFrom` filter, if any, returning it together with the
updated mailbox registry (JS mutates the queue array in place). -/
def tryDeliverMessage (mailboxes : List (Nat × List MailMsg)) (pcb : PCB) :
    Option MailMsg × List (Nat × List MailMsg) :=
  let queue := (lookupL mailboxes pcb.pid).getD []
  match queue with
  | [] => (none, mailboxes)
  | m :: rest =>
    match pcb.waitFrom with
    | none => (some m, setL mailboxes pcb.pid rest)
    | some wf =>
      match (m :: rest).findIdx? (fun mm => mm.fromPid = wf) with
      | none => (none, mailboxes)
      | some idx =>
        ((m :: rest).get? idx, setL mailboxes pcb.pid ((m :: rest).eraseIdx idx))

/-- The `for (const other of this.processes)` wake loop of the `SEND` case:
deliver to every blocked matching receiver in table order, threading the
mailbox registry. -/
def sendWakeLoop (toPid : Nat) :
    List PCB → List (Nat × List MailMsg) → List PCB × List (Nat × List MailMsg)
  | [], mbs => ([], mbs)
  | other :: rest, mbs =>
    if other.pid = toPid ∧ other.state = .blocked ∧ other.blockReason = some .recv then
      match tryDeliverMessage mbs other with
      | (some m, mbs') =>
        let other' := {other with lastSyscallResult := .vmailMsg m, state := .ready,
                                  blockReason := none, waitFrom := none}
        let (rest', mbs'') := sendWakeLoop toPid rest mbs'
        (other' :: rest', mbs'')
      | (none, mbs') =>
        let (rest', mbs'') := sendWakeLoop toPid rest mbs'
        (other :: rest', mbs'')
    else
      let (rest', mbs') := sendWakeLoop toPid rest mbs
      (other :: rest', mbs')

/-- The `for (const other of this.processes)` wake loop of the `SEND_PORT`
case: hand the head of the port queue to the blocked owner, threading the
queue. -/
def portWakeLoop (ownerPid : Nat) (key : String) :
    List PCB → List PortMsg → List PCB × List PortMsg
  | [], queue => ([], queue)
  | other :: rest, queue =>
    if other.pid = ownerPid ∧ other.state = .blocked ∧
        other.blockReason = some .recv_port ∧ other.waitPort = some key then
      match queue with
      | m :: qrest =>
        let other' := {other with lastSyscallResult := .vportMsg m, state := .ready,
                                  blockReason := none, waitPort := none,
                                  waitTimeoutAt := none}
        let (rest', q') := portWakeLoop ownerPid key rest qrest
        (other' :: rest', q')
      | [] =>
        let (rest', q') := portWakeLoop ownerPid key rest []
        (other :: rest', q')
    else
      let (rest', q') := portWakeLoop ownerPid key rest queue
      (other :: rest', q')

/-- `getProcessTable()`. -/
def getProcessTable (s : State) : List ProcRowA :=
  s.processes.map fun p =>
    .mk p.pid p.name p.priority p.state p.blockReason p.wakeTime p.exitCode
      p.lastSyscallResult p.spawnTime

/-- `getPortsTable()`. -/
def getPortsTable (s : State) : List PortRow :=
  s.ports.map fun kv => ⟨kv.1, kv.2.ownerPid, kv.2.queue.length⟩

/-- `listFiles()` (`preview` is `content.slice(0, 80)`). -/
def listFiles (s : State) : List FileRow :=
  s.vfs.map fun kv => ⟨kv.1, kv.2.length, kv.2.take 80⟩

/-- `spawn(programFactory, {name, priority, args})`: allocate the next pid,
instantiate the routine, build the PCB with standard streams preallocated,
append it and register an empty mailbox. -/
def spawn (s : State) (factory : List Value → Routine) (name : String)
    (priority : Int) (args : List Value) : State × Nat :=
  let pid := s.globalNextPid
  let pcb : PCB :=
    { pid := pid, name := name, priority := priority, routine := factory args,
      state := .ready, wakeTime := none, blockReason := none, waitFrom := none,
      waitPort := none, waitTimeoutAt := none, lastSyscallResult := .vundef,
      exitCode := none,
      fdTable := [(0, .stdin), (1, .stdout), (2, .stderr)], nextFd := 3,
      heap := [], spawnTime := s.wallNow }
  ({s with processes := s.processes ++ [pcb],
           mailboxes := setL s.mailboxes pid [],
           globalNextPid := pid + 1}, pid)

/-- JS `content.slice(start, end)` for `0 ≤ start` (clamps at both ends;
empty when `end ≤ start`). -/
def jsSlice (s : String) (start endPos : Nat) : String :=
  (s.drop start).take (endPos - start)

/-- `_handleSyscall(pcb, req)`: the dispatcher.  Returns the mutated kernel
state and the syscall's return value (which `tick` then stores into
`lastSyscallResult`, see `dispatch`). -/
def handleSyscall (s : State) (pcb : PCB) (req : SyscallReq) : State × Value :=
  match req with
  | .SLEEP ms =>
    (updA s pcb.pid fun p =>
      {p with state := .blocked, blockReason := some .sleep,
              wakeTime := some (s.time + ms.getD 0)}, .vnull)
  | .LOG msg =>
    let s1 := {s with logs := s.logs ++ [⟨s.time, pcb.pid, msg⟩]}
    (updA s1 pcb.pid fun p => {p with state := .ready}, .vnull)
  | .GETPID =>
    (updA s pcb.pid fun p => {p with state := .ready}, .vint pcb.pid)
  | .SEND toPid message =>
    let mbs0 := if (lookupL s.mailboxes toPid).isNone then setL s.mailboxes toPid []
                else s.mailboxes
    let msg : MailMsg := .mk pcb.pid message s.time
    let mbs1 := setL mbs0 toPid ((lookupL mbs0 toPid).getD [] ++ [msg])
    let pm := sendWakeLoop toPid s.processes mbs1
    let s2 := {s with processes := pm.1, mailboxes := pm.2}
    (updA s2 pcb.pid fun p => {p with state := .ready}, .vbool true)
  | .RECV fromOpt =>
    let pcb1 := {pcb with blockReason := some .recv, waitFrom := fromOpt}
    match tryDeliverMessage s.mailboxes pcb1 with
    | (some m, mbs') =>
      (updA {s with mailboxes := mbs'} pcb.pid fun p =>
        {p with state := .ready, blockReason := none, waitFrom := none}, .vmailMsg m)
    | (none, mbs') =>
      (updA {s with mailboxes := mbs'} pcb.pid fun p =>
        {p with state := .blocked, blockReason := some .recv, waitFrom := fromOpt},
       .vnull)
  | .OPEN path mode =>
    let mode' := if mode = "" then "r" else mode
    let content? := lookupL s.vfs path
    if mode' = "r" then
      match content? with
      | none => (updA s pcb.pid fun p => {p with state := .ready}, .vint (-1))
      | some _ =>
        (updA s pcb.pid fun p =>
          {p with state := .ready,
                  fdTable := setL p.fdTable p.nextFd (.file path 0 mode'),
                  nextFd := p.nextFd + 1}, .vint pcb.nextFd)
    else if mode' = "w" then
      (updA {s with vfs := setL s.vfs path ""} pcb.pid fun p =>
        {p with state := .ready,
                fdTable := setL p.fdTable p.nextFd (.file path 0 mode'),
                nextFd := p.nextFd + 1}, .vint pcb.nextFd)
    else if mode' = "a" then
      let content := content?.getD ""
      (updA {s with vfs := setL s.vfs path content} pcb.pid fun p =>
        {p with state := .ready,
                fdTable := setL p.fdTable p.nextFd (.file path content.length mode'),
                nextFd := p.nextFd + 1}, .vint pcb.nextFd)
    else
      (updA s pcb.pid fun p => {p with state := .ready}, .vint (-1))
  | .READ fd n =>
    match lookupL pcb.fdTable fd with
    | some (.file path pos mode) =>
      let content := (lookupL s.vfs path).getD ""
      let endPos := match n with
        | none => content.length
        | some k => pos + k
      if pos ≥ content.length then
        (updA s pcb.pid fun p => {p with state := .ready}, .vstr "")
      else
        (updA s pcb.pid fun p =>
          {p with state := .ready,
                  fdTable := setL p.fdTable fd (.file path endPos mode)},
         .vstr (jsSlice content pos endPos))
    | _ => (updA s pcb.pid fun p => {p with state := .ready}, .vnull)
  | .WRITE fd data =>
    let dataV := if data.isNullish then .vstr "" else data
    let text := dataV.jsToString
    if fd = 1 then
      (updA s pcb.pid fun p => {p with state := .ready}, .vint text.length)
    else if fd = 2 then
      (updA s pcb.pid fun p => {p with state := .ready}, .vint text.length)
    else
      match lookupL pcb.fdTable fd with
      | some (.file path pos mode) =>
        let content := (lookupL s.vfs path).getD ""
        let content' := if pos ≥ content.length then content ++ text
          else content.take pos ++ text ++ content.drop (pos + text.length)
        (updA {s with vfs := setL s.vfs path content'} pcb.pid fun p =>
          {p with state := .ready,
                  fdTable := setL p.fdTable fd (.file path (pos + text.length) mode)},
         .vint text.length)
      | _ => (updA s pcb.pid fun p => {p with state := .ready}, .vint (-1))
  | .CLOSE fd =>
    (updA s pcb.pid fun p =>
      {p with state := .ready, fdTable := eraseL p.fdTable fd}, .vint 0)
  | .EXEC programName args =>
    match lookupL s.programs programName with
    | none => (updA s pcb.pid fun p => {p with state := .ready}, .vint (-1))
    | some prog =>
      (updA s pcb.pid fun p =>
        {p with routine := prog args, state := .ready,
                lastSyscallResult := .vint 0}, .vint 0)
  | .EXIT code =>
    let c := code.getD 0
    (updA s pcb.pid fun p =>
      {p with exitCode := some c, state := .terminated}, .vint c)
  | .HEAP_SET key value =>
    (updA s pcb.pid fun p =>
      {p with heap := setL p.heap key value, state := .ready}, .vbool true)
  | .HEAP_GET key =>
    (updA s pcb.pid fun p => {p with state := .ready},
     (lookupL pcb.heap key).getD .vundef)
  | .LISTEN port =>
    let key := normalizePortKey port
    if (lookupL s.ports key).isSome then
      (updA s pcb.pid fun p => {p with state := .ready}, .vbool false)
    else
      (updA {s with ports := setL s.ports key ⟨pcb.pid, []⟩} pcb.pid fun p =>
        {p with state := .ready}, .vbool true)
  | .UNLISTEN port =>
    let key := normalizePortKey port
    match lookupL s.ports key with
    | some e =>
      if e.ownerPid = pcb.pid then
        (updA {s with ports := eraseL s.ports key} pcb.pid fun p =>
          {p with state := .ready}, .vbool true)
      else
        (updA s pcb.pid fun p => {p with state := .ready}, .vbool false)
    | none => (updA s pcb.pid fun p => {p with state := .ready}, .vbool false)
  | .SEND_PORT port payload =>
    let key := normalizePortKey port
    match lookupL s.ports key with
    | none => (updA s pcb.pid fun p => {p with state := .ready}, .vbool false)
    | some e =>
      let queue1 := e.queue ++ [PortMsg.mk pcb.pid payload s.time]
      let pq := portWakeLoop e.ownerPid key s.processes queue1
      let s2 := {s with processes := pq.1,
                        ports := setL s.ports key ⟨e.ownerPid, pq.2⟩}
      (updA s2 pcb.pid fun p => {p with state := .ready}, .vbool true)
  | .RECV_PORT port timeoutMs =>
    let key := normalizePortKey port
    match lookupL s.ports key with
    | none => (updA s pcb.pid fun p => {p with state := .ready}, .vnull)
    | some e =>
      if e.ownerPid ≠ pcb.pid then
        (updA s pcb.pid fun p => {p with state := .ready}, .vnull)
      else
        match e.queue with
        | [] =>
          (updA s pcb.pid fun p =>
            {p with state := .blocked, blockReason := some .recv_port,
                    waitPort := some key,
                    waitTimeoutAt := timeoutMs.map (s.time + ·)}, .vnull)
        | m :: rest =>
          (updA {s with ports := setL s.ports key ⟨e.ownerPid, rest⟩} pcb.pid
            fun p => {p with state := .ready}, .vportMsg m)
  | .SPAWN programName args priority =>
    match lookupL s.programs programName with
    | none => (updA s pcb.pid fun p => {p with state := .ready}, .vint (-1))
    | some prog =>
      let r := spawn s prog programName (priority.getD 1) args
      (updA r.1 pcb.pid fun p => {p with state := .ready}, .vint r.2)
  | .KINFO kind =>
    if kind = "PS" then
      let s' := updA s pcb.pid fun p => {p with state := .ready}
      (s', .vprocRowsA (getProcessTable s'))
    else if kind = "PORTS" then
      let s' := updA s pcb.pid fun p => {p with state := .ready}
      (s', .vportRows (getPortsTable s'))
    else if kind = "VFS" then
      let s' := updA s pcb.pid fun p => {p with state := .ready}
      (s', .vfileRows (listFiles s'))
    else
      (updA s pcb.pid fun p => {p with state := .ready}, .vnull)
  | .UNKNOWN _tag =>
    (updA s pcb.pid fun p => {p with state := .ready}, .vnull)

/-- One dispatched syscall as `tick` performs it: run the handler, then store
the returned value into the caller's `lastSyscallResult`
(`pcb.lastSyscallResult = this._handleSyscall(pcb, syscallReq)`). -/
def dispatch (s : State) (pcb : PCB) (req : SyscallReq) : State × Value :=
  let r := handleSyscall s pcb req
  (updA r.1 pcb.pid (fun p => {p with lastSyscallResult := r.2}), r.2)

/-- `o` is a set deadline that has passed (`x !== null && x <= time`). -/
def due (o : Option Nat) (t : Nat) : Bool :=
  match o with
  | some w => decide (w ≤ t)
  | none => false

/-- The per-PCB body of the timed-unblock pass at the top of `tick`:
first the sleep check, then the `recv_port` timeout check. -/
def unblockPcb (time : Nat) (pcb : PCB) : PCB :=
  let p1 :=
    if pcb.state = .blocked ∧ pcb.blockReason = some .sleep ∧
        due pcb.wakeTime time = true then
      {pcb with state := .ready, blockReason := none, wakeTime := none}
    else pcb
  if p1.state = .blocked ∧ p1.blockReason = some .recv_port ∧
      due p1.waitTimeoutAt time = true then
    {p1 with state := .ready, blockReason := none, waitPort := none,
             waitTimeoutAt := none, lastSyscallResult := .vnull}
  else p1

/-- `ready.sort((a, b) => b.priority - a.priority)[0]`: JS's sort is stable,
so the head of the sorted array is the first list element of maximal
priority, which this fold computes. -/
def selectReady : List PCB → Option PCB
  | [] => none
  | p :: rest =>
    some (rest.foldl (fun best q => if best.priority < q.priority then q else best) p)

/-- What one `tick()` call returns to the host: a normal return, or an
exception propagating out of the un-guarded `pcb.iterator.next(...)`. -/
inductive TickOutcome where
  | ok (s : State)
  | thrown (err : String) (s : State)

/-- `tick()`: advance time, run the timed-unblock pass, pick the highest
priority READY process, resume it once, and dispatch what it yields.  The
second component instruments which pid (if any) was resumed. -/
def tick (s : State) : TickOutcome × Option Nat :=
  let time' := s.time + s.tickMs
  let procs' := s.processes.map (unblockPcb time')
  let s1 := {s with time := time', processes := procs'}
  let ready := procs'.filter fun p => p.state = .ready
  match selectReady ready with
  | none => (.ok s1, none)
  | some pcb =>
    let s2 := updA s1 pcb.pid fun p => {p with state := .running}
    match pcb.routine.step pcb.lastSyscallResult with
    | .crash err => (.thrown err s2, some pcb.pid)
    | .done _v =>
      (.ok (updA s2 pcb.pid fun p => {p with state := .terminated}), some pcb.pid)
    | .yields (.raw _v) k =>
      (.ok (updA s2 pcb.pid fun p =>
        {p with routine := k, lastSyscallResult := .vundef, state := .ready}),
       some pcb.pid)
    | .yields (.req r) k =>
      let s3 := updA s2 pcb.pid fun p => {p with routine := k}
      let pcb3 := {pcb with state := .running, routine := k}
      let r4 := handleSyscall s3 pcb3 r
      (.ok (updA r4.1 pcb.pid fun p => {p with lastSyscallResult := r4.2}),
       some pcb.pid)

/-- `cleanupTerminated()`: drop TERMINATED PCBs and, for each dead pid,
delete its mailbox and every port it owns.  (JS performs per-pid `Map.delete`
over the dead set; on a `Map` — keys unique — that is this filter.) -/
def cleanupTerminated (s : State) : State :=
  let deadPids := (s.processes.filter fun p => p.state = .terminated).map (·.pid)
  {s with processes := s.processes.filter fun p => ¬ p.state = .terminated,
          mailboxes := s.mailboxes.filter fun kv => ¬ deadPids.contains kv.1,
          ports := s.ports.filter fun kv => ¬ deadPids.contains kv.2.ownerPid}

end KernelA

/-! ## Kernel B — the kernel of `src/kernel.js` (the "full version")

Its `tick` resumes every READY/RUNNING process in table order, `_runProcess`
catches routine crashes, `KILL` exists, and `cleanupTerminated` only filters
the process table (mailboxes and ports are left behind). -/

namespace KernelB

/-- Row of `getPortsTable()` in `src/kernel.js` (numeric port, sorted
ascending). -/
structure PortRowB where
  port : Int
  ownerPid : Nat
  queueLength : Nat
deriving DecidableEq, Repr

mutual
/-- Syscall requests of `src/kernel.js` (`_createSyscalls`).  `SPAWN` carries
the program factory itself; `UNKNOWN` covers any yielded value whose `type`
matches no case, including non-object yields (`result.value || {}` makes
their `type` print as `undefined`). -/
inductive SyscallReq where
  | SLEEP (ms : Option Nat)
  | LOG (message : Value)
  | GET_PID
  | SEND (toPid : Nat) (payload : Value)
  | RECV
  | LISTEN (port : Int)
  | SEND_PORT (port : Int) (payload : Value)
  | RECV_PORT (port : Int)
  | SPAWN (program : SpawnProg) (optName : Option String) (optPriority : Option Int)
  | EXIT (code : Option Int)
  | PS
  | LIST_FILES
  | READ_FILE (path : String)
  | WRITE_FILE (path : String) (text : Value)
  | UNLINK (path : String)
  | LIST_PORTS
  | KILL (targetPid : Nat) (signal : String)
  | UNKNOWN (tag : String)

/-- A program factory passed to `spawn`: calling it either yields a routine
or throws (the `catch` in `_spawnInternal`). -/
inductive SpawnProg where
  | ok (r : Routine)
  | throws (err : String)

/-- A resumable routine for kernel B. -/
inductive Routine where
  | mk (step : Value → StepResult)

/-- Outcome of one `iterator.next(value)` call. -/
inductive StepResult where
  | yields (r : SyscallReq) (k : Routine)
  | done (v : Value)
  | crash (err : String)
end

/-- Run one resume step of a routine. -/
def Routine.step : Routine → Value → StepResult
  | .mk f => f

/-- The `waitingFor` field: `{type:"SLEEP", until}`, `{type:"RECV"}` or
`{type:"RECV_PORT", port}`. -/
inductive WaitingFor where
  | sleepW (untilMs : Nat)
  | recvW
  | recvPortW (port : Int)
deriving DecidableEq, Repr

/-- Process control block built in `_spawnInternal` (the unused `program`
field is omitted; `iterator` is `routine`). -/
structure PCB where
  pid : Nat
  name : String
  priority : Int
  state : PState
  blockReason : Option BlockReason
  exitCode : Option Int
  routine : Routine
  waitingFor : Option WaitingFor
  nextValue : Value
  spawnTime : Int

/-- A port registry entry `{ownerPid, queue}`. -/
structure PortEntry where
  ownerPid : Nat
  queue : List MsgB

/-- A VFS entry `{path, createdAt, updatedAt, content}`. -/
structure FileMeta where
  path : String
  createdAt : Int
  updatedAt : Int
  content : String
deriving DecidableEq, Repr

/-- A log entry `{time: Date.now(), pid, msg}`. -/
structure LogEntry where
  time : Int
  pid : Nat
  msg : Value

/-- Kernel state.  `wallNow` stands for the ambient `Date.now()`;
`localStorage` persistence (`_saveVfsToStorage`) writes outside the kernel
state and is a no-op here; the unused `programRegistry` is omitted. -/
structure State where
  tickMs : Nat
  timeMs : Nat
  processes : List PCB
  nextPid : Nat
  logs : List LogEntry
  mailbox : List (Nat × List MsgB)
  ports : List (Int × PortEntry)
  vfs : List (String × FileMeta)
  wallNow : Int

/-- `_findPcb(pid)`. -/
def findPcb (s : State) (pid : Nat) : Option PCB :=
  s.processes.find? fun p => p.pid = pid

/-- In-place mutation of the PCB carrying `pid` (see `KernelA.updA`). -/
def updB (s : State) (pid : Nat) (f : PCB → PCB) : State :=
  {s with processes := s.processes.map fun p => if p.pid = pid then f p else p}

/-- `_log(pid, msg)`: push, then drop the oldest entry beyond 1000. -/
def logB (s : State) (pid : Nat) (msg : Value) : State :=
  let logs' := s.logs ++ [⟨s.wallNow, pid, msg⟩]
  {s with logs := if logs'.length > 1000 then logs'.drop 1 else logs'}

/-- `_writeFile(path, content)`: root the path, upsert the meta record,
refresh `updatedAt`. -/
def writeFile (s : State) (path : String) (content : String) : State :=
  let normPath := if path.startsWith "/" then path else "/" ++ path
  let meta := (lookupL s.vfs normPath).getD
    ⟨normPath, s.wallNow, s.wallNow, ""⟩
  let meta' := {meta with content := content, updatedAt := s.wallNow}
  {s with vfs := setL s.vfs normPath meta'}

/-- `_unlinkFile(path)`: root the path, delete, report existence. -/
def unlinkFile (s : State) (path : String) : State × Bool :=
  let normPath := if path.startsWith "/" then path else "/" ++ path
  let existed := (lookupL s.vfs normPath).isSome
  ({s with vfs := eraseL s.vfs normPath}, existed)

/-- `_spawnInternal(program, opts)`: allocate the pid, build the PCB, call
the factory; if the factory throws, log and do not push (the half-built PCB
is discarded); either way return the pid. -/
def spawnInternal (s : State) (program : SpawnProg) (optName : Option String)
    (optPriority : Option Int) : State × Nat :=
  let pid := s.nextPid
  let s0 := {s with nextPid := pid + 1}
  let name := match optName with
    | some n => if n = "" then "proc-" ++ toString pid else n
    | none => "proc-" ++ toString pid
  match program with
  | .throws err =>
    (logB s0 pid (.vstr ("Error starting program: " ++ err)), pid)
  | .ok r =>
    let pcb : PCB :=
      { pid := pid, name := name, priority := optPriority.getD 1,
        state := .ready, blockReason := none, exitCode := none, routine := r,
        waitingFor := none, nextValue := .vundef, spawnTime := s.wallNow }
    ({s0 with processes := s0.processes ++ [pcb]}, pid)

/-- `getProcessTable()`. -/
def getProcessTable (s : State) : List ProcRowB :=
  s.processes.map fun p =>
    ⟨p.pid, p.name, p.priority, p.state, p.blockReason, p.exitCode, p.spawnTime⟩

/-- `getPortsTable()`: rows sorted by port number ascending. -/
def getPortsTable (s : State) : List PortRowB :=
  (s.ports.map fun kv => PortRowB.mk kv.1 kv.2.ownerPid kv.2.queue.length).mergeSort
    fun a b => a.port ≤ b.port

/-- Collapse whitespace runs into single spaces (`replace(/\s+/g, " ")`). -/
def collapseWs (str : String) : String :=
  let step := fun (acc : String × Bool) (c : Char) =>
    if c.isWhitespace then (if acc.2 then acc else (acc.1 ++ " ", true))
    else (acc.1.push c, false)
  (str.toList.foldl step ("", false)).1

/-- `listFiles()`: preview is the first 57 characters (whitespace collapsed)
plus `...` when longer than 60; rows sorted by path (`localeCompare`
modelled as code-point order). -/
def listFilesB (s : State) : List FileRow :=
  (s.vfs.map fun kv =>
    let text := kv.2.content
    let preview := if text.length > 60 then collapseWs (text.take 57) ++ "..."
      else text
    FileRow.mk kv.1 text.length preview).mergeSort fun a b => a.path ≤ b.path

/-- The SLEEP part of the `waitingFor` guard:
`p.waitingFor && p.waitingFor.type === "SLEEP" && timeMs >= p.waitingFor.until`. -/
def sleepDue (w : Option WaitingFor) (t : Nat) : Bool :=
  match w with
  | some (.sleepW u) => decide (u ≤ t)
  | _ => false

/-- The wake-sleepers loop at the bottom of `_handleSyscall`: every blocked
PCB whose `waitingFor` is an expired SLEEP becomes READY with
`nextValue = true`. -/
def wakeSleepers (s : State) : State :=
  {s with processes := s.processes.map fun p =>
    if p.state = .blocked ∧ sleepDue p.waitingFor s.timeMs = true then
      {p with state := .ready, blockReason := none, waitingFor := none,
              nextValue := .vbool true}
    else p}

/-- `_handleSyscall(pcb, syscall)`: mutate the caller (and possibly a
target), then run the wake-sleepers loop. -/
def handleSyscall (s : State) (pcb : PCB) (req : SyscallReq) : State :=
  let s' := match req with
  | .SLEEP ms =>
    let untilT := s.timeMs + ms.getD 0
    updB s pcb.pid fun p =>
      {p with blockReason := some .sleep, state := .blocked,
              waitingFor := some (.sleepW untilT)}
  | .LOG message =>
    let msgV := if message.isNullish then .vstr "" else message
    let s1 := logB s pcb.pid msgV
    updB s1 pcb.pid fun p =>
      {p with state := .ready, blockReason := none, nextValue := .vbool true}
  | .GET_PID =>
    updB s pcb.pid fun p =>
      {p with state := .ready, blockReason := none, nextValue := .vint pcb.pid}
  | .SEND toPid payload =>
    let s1 := match findPcb s toPid with
      | some target =>
        let queue := (lookupL s.mailbox target.pid).getD []
        let queue1 := queue ++ [MsgB.mk pcb.pid payload]
        let s1 := {s with mailbox := setL s.mailbox target.pid queue1}
        if target.state = .blocked ∧ target.blockReason = some .recv then
          match queue1 with
          | deliver :: qrest =>
            let s2 := {s1 with mailbox := setL s1.mailbox target.pid qrest}
            updB s2 target.pid fun p =>
              {p with state := .ready, blockReason := none,
                      nextValue := .vmsgB deliver}
          | [] => s1
        else s1
      | none => s
    updB s1 pcb.pid fun p =>
      {p with state := .ready, blockReason := none, nextValue := .vbool true}
  | .RECV =>
    let queue := (lookupL s.mailbox pcb.pid).getD []
    match queue with
    | m :: rest =>
      let s1 := {s with mailbox := setL s.mailbox pcb.pid rest}
      updB s1 pcb.pid fun p =>
        {p with state := .ready, blockReason := none, nextValue := .vmsgB m}
    | [] =>
      updB s pcb.pid fun p =>
        {p with state := .blocked, blockReason := some .recv,
                waitingFor := some .recvW}
  | .LISTEN port =>
    match lookupL s.ports port with
    | some existing =>
      if existing.ownerPid ≠ pcb.pid then
        updB s pcb.pid fun p =>
          {p with state := .ready, blockReason := none, nextValue := .vbool false}
      else
        let entry := {existing with ownerPid := pcb.pid}
        let s1 := {s with ports := setL s.ports port entry}
        updB s1 pcb.pid fun p =>
          {p with state := .ready, blockReason := none, nextValue := .vbool true}
    | none =>
      let s1 := {s with ports := setL s.ports port ⟨pcb.pid, []⟩}
      updB s1 pcb.pid fun p =>
        {p with state := .ready, blockReason := none, nextValue := .vbool true}
  | .SEND_PORT port payload =>
    let s1 := match lookupL s.ports port with
      | some entry =>
        let queue1 := entry.queue ++ [MsgB.mk pcb.pid payload]
        match findPcb s entry.ownerPid with
        | some target =>
          if target.state = .blocked ∧ target.blockReason = some .recv_port then
            match queue1 with
            | deliver :: qrest =>
              let s1 := {s with ports := setL s.ports port ⟨entry.ownerPid, qrest⟩}
              updB s1 target.pid fun p =>
                {p with state := .ready, blockReason := none,
                        nextValue := .vmsgB deliver}
            | [] => {s with ports := setL s.ports port ⟨entry.ownerPid, queue1⟩}
          else {s with ports := setL s.ports port ⟨entry.ownerPid, queue1⟩}
        | none => {s with ports := setL s.ports port ⟨entry.ownerPid, queue1⟩}
      | none => s
    updB s1 pcb.pid fun p =>
      {p with state := .ready, blockReason := none, nextValue := .vbool true}
  | .RECV_PORT port =>
    match lookupL s.ports port with
    | some entry =>
      match entry.queue with
      | m :: rest =>
        let s1 := {s with ports := setL s.ports port ⟨entry.ownerPid, rest⟩}
        updB s1 pcb.pid fun p =>
          {p with state := .ready, blockReason := none, nextValue := .vmsgB m}
      | [] =>
        updB s pcb.pid fun p =>
          {p with state := .blocked, blockReason := some .recv_port,
                  waitingFor := some (.recvPortW port)}
    | none =>
      updB s pcb.pid fun p =>
        {p with state := .blocked, blockReason := some .recv_port,
                waitingFor := some (.recvPortW port)}
  | .SPAWN program optName optPriority =>
    let (s1, childPid) := spawnInternal s program optName optPriority
    updB s1 pcb.pid fun p =>
      {p with state := .ready, blockReason := none, nextValue := .vint childPid}
  | .EXIT code =>
    updB s pcb.pid fun p =>
      {p with state := .terminated, blockReason := none,
              exitCode := some (match code with
                | some n => n
                | none => p.exitCode.getD 0)}
  | .PS =>
    let s1 := updB s pcb.pid fun p => {p with state := .ready, blockReason := none}
    updB s1 pcb.pid fun p => {p with nextValue := .vprocRowsB (getProcessTable s1)}
  | .LIST_FILES =>
    let s1 := updB s pcb.pid fun p => {p with state := .ready, blockReason := none}
    updB s1 pcb.pid fun p => {p with nextValue := .vfileRows (listFilesB s1)}
  | .READ_FILE path =>
    updB s pcb.pid fun p =>
      {p with state := .ready, blockReason := none,
              nextValue := match lookupL s.vfs path with
                | some meta => .vstr meta.content
                | none => .vnull}
  | .WRITE_FILE path text =>
    let textS := (if text.isNullish then Value.vstr "" else text).jsToString
    let s1 := writeFile s path textS
    updB s1 pcb.pid fun p =>
      {p with state := .ready, blockReason := none,
              nextValue := .vint textS.length}
  | .UNLINK path =>
    let (s1, ok) := unlinkFile s path
    updB s1 pcb.pid fun p =>
      {p with state := .ready, blockReason := none, nextValue := .vbool ok}
  | .LIST_PORTS =>
    let s1 := updB s pcb.pid fun p => {p with state := .ready, blockReason := none}
    updB s1 pcb.pid fun p =>
      {p with nextValue := .vportRows ((getPortsTable s1).map fun r =>
        PortRow.mk (toString r.port) r.ownerPid r.queueLength)}
  | .KILL targetPid signal =>
    let s1 := match findPcb s targetPid with
      | some target =>
        let sig := if signal = "" then "TERM" else signal
        let s1 := logB s pcb.pid
          (.vstr ("Sending " ++ sig ++ " to pid=" ++ toString target.pid))
        updB s1 targetPid fun p =>
          {p with state := .terminated, blockReason := none, exitCode := some (-1)}
      | none => s
    updB s1 pcb.pid fun p =>
      {p with state := .ready, blockReason := none, nextValue := .vbool true}
  | .UNKNOWN tag =>
    let s1 := logB s pcb.pid (.vstr ("Unknown syscall: " ++ tag))
    updB s1 pcb.pid fun p =>
      {p with state := .ready, blockReason := none, nextValue := .vnull}
  wakeSleepers s'

/-- `_runProcess(pcb)`: resume once; catch a crash (log `Process crashed:`,
TERMINATED with exit 1); on completion record the numeric exit code;
otherwise dispatch the yielded syscall. -/
def runProcess (s : State) (pid : Nat) : State :=
  match findPcb s pid with
  | none => s
  | some pcb =>
    if pcb.state = .terminated then s
    else
      let s1 := updB s pid fun p => {p with state := .running, nextValue := .vundef}
      let input := pcb.nextValue
      match pcb.routine.step input with
      | .crash err =>
        let s2 := logB s1 pid (.vstr ("Process crashed: " ++ err))
        updB s2 pid fun p =>
          {p with state := .terminated, blockReason := none, exitCode := some 1}
      | .done v =>
        updB s1 pid fun p =>
          {p with state := .terminated, blockReason := none,
                  exitCode := some (match v with | .vint n => n | _ => 0)}
      | .yields r k =>
        let s2 := updB s1 pid fun p => {p with routine := k}
        handleSyscall s2 {pcb with state := .running, nextValue := .vundef,
                                   routine := k} r

/-- The `for (const pcb of this.processes)` loop of `tick()`: JS iterates the
live array, so PCBs appended by `SPAWN` during the tick are visited too; the
loop is indexed and fuelled (`none` = fuel exhausted).  The second component
counts how many processes were resumed. -/
def tickLoop : Nat → Nat → State → Nat → Option (State × Nat)
  | 0, _, _, _ => none
  | fuel + 1, i, s, count =>
    if h : i < s.processes.length then
      let p := s.processes.get ⟨i, h⟩
      if p.state = .ready ∨ p.state = .running then
        tickLoop fuel (i + 1) (runProcess s p.pid) (count + 1)
      else
        tickLoop fuel (i + 1) s count
    else
      some (s, count)

/-- `tick()`: advance logical time, then run every READY/RUNNING process. -/
def tickRun (fuel : Nat) (s : State) : Option (State × Nat) :=
  tickLoop fuel 0 {s with timeMs := s.timeMs + s.tickMs} 0

/-- `cleanupTerminated()`: drop TERMINATED PCBs — and nothing else: mailboxes
and ports are untouched. -/
def cleanupTerminated (s : State) : State :=
  {s with processes := s.processes.filter fun p => ¬ p.state = .terminated}

end KernelB

/-! ## Helper lemmas -/

namespace KernelA

theorem findProc_updA (s : State) (pid : Nat) (f : PCB → PCB)
    (hf : ∀ p, (f p).pid = p.pid) :
    findProc (updA s pid f) pid = (findProc s pid).map f := by
  unfold findProc updA
  induction s.processes with
  | nil => simp
  | cons hd tl ih =>
    by_cases h : hd.pid = pid
    · simp [List.find?, h, hf]
    · simpa [List.find?, h, hf] using ih

theorem findProc_vfs (s : State) (pid : Nat) (vfs' : List (String × String)) :
    findProc {s with vfs := vfs'} pid = findProc s pid := rfl

theorem unblockPcb_pid (t : Nat) (p : PCB) : (unblockPcb t p).pid = p.pid := by
  unfold unblockPcb
  dsimp only
  split_ifs <;> rfl

/-- The wake loop of `SEND` leaves the table and registry alone when no
process carries the destination pid. -/
theorem sendWakeLoop_no_match (toPid : Nat) (l : List PCB)
    (mbs : List (Nat × List MailMsg)) (h : ∀ q ∈ l, q.pid ≠ toPid) :
    sendWakeLoop toPid l mbs = (l, mbs) := by
  induction l generalizing mbs with
  | nil => rfl
  | cons hd tl ih =>
    have hhd : hd.pid ≠ toPid := h hd (List.mem_cons_self _ _)
    have htl : ∀ q ∈ tl, q.pid ≠ toPid := fun q hq => h q (List.mem_cons_of_mem _ hq)
    simp [sendWakeLoop, hhd, ih mbs htl]

end KernelA

namespace KernelB

theorem findPcb_updB (s : State) (pid : Nat) (f : PCB → PCB)
    (hf : ∀ p, (f p).pid = p.pid) :
    findPcb (updB s pid f) pid = (findPcb s pid).map f := by
  unfold findPcb updB
  induction s.processes with
  | nil => simp
  | cons hd tl ih =>
    by_cases h : hd.pid = pid
    · simp [List.find?, h, hf]
    · simpa [List.find?, h, hf] using ih

end KernelB

/-- `selectReady`'s fold picks the first list element of maximal priority:
it is a member, it dominates every priority, and among equal priorities it
has the least pid whenever pids strictly increase along the list. -/
theorem selectReady_foldl_spec (l : List KernelA.PCB) (acc : KernelA.PCB)
    (hp : l.Pairwise fun p q => p.pid < q.pid)
    (hacc : ∀ q ∈ l, acc.pid < q.pid) :
    (l.foldl (fun best q => if best.priority < q.priority then q else best) acc = acc ∨
       l.foldl (fun best q => if best.priority < q.priority then q else best) acc ∈ l) ∧
    acc.priority ≤
      (l.foldl (fun best q => if best.priority < q.priority then q else best) acc).priority ∧
    (∀ q ∈ l, q.priority ≤
      (l.foldl (fun best q => if best.priority < q.priority then q else best) acc).priority) ∧
    (∀ q, (q = acc ∨ q ∈ l) →
      q.priority =
        (l.foldl (fun best q => if best.priority < q.priority then q else best) acc).priority →
      (l.foldl (fun best q => if best.priority < q.priority then q else best) acc).pid ≤ q.pid) := by
  induction l generalizing acc with
  | nil =>
    refine ⟨Or.inl rfl, le_refl _, ?_, ?_⟩
    · intro q hq; cases hq
    · intro q hq _heq
      rcases hq with hq | hq
      · subst hq; simp [List.foldl]
      · cases hq
  | cons b tl ih =>
    have hp' : tl.Pairwise fun p q => p.pid < q.pid := hp.tail
    have hbtl : ∀ q ∈ tl, b.pid < q.pid := by
      intro q hq
      exact (List.pairwise_cons.mp hp).1 q hq
    by_cases hlt : acc.priority < b.priority
    · -- the fold continues with accumulator b
      have hstep : (b :: tl).foldl
          (fun best q => if best.priority < q.priority then q else best) acc =
          tl.foldl (fun best q => if best.priority < q.priority then q else best) b := by
        simp [List.foldl, hlt]
      obtain ⟨hmem, haccle, hmax, hpid⟩ := ih b hp' hbtl
      rw [hstep]
      refine ⟨?_, ?_, ?_, ?_⟩
      · rcases hmem with h | h
        · exact Or.inr (by rw [h]; exact List.mem_cons_self _ _)
        · exact Or.inr (List.mem_cons_of_mem _ h)
      · exact le_of_lt (lt_of_lt_of_le hlt haccle)
      · intro q hq
        rcases List.mem_cons.mp hq with h | h
        · exact h ▸ haccle
        · exact hmax q h
      · intro q hq heq
        rcases hq with h | h
        · -- q = acc: impossible at the max priority, since acc < b ≤ result
          subst h
          have hcontra := lt_of_lt_of_le hlt haccle
          omega
        · rcases List.mem_cons.mp h with h' | h'
          · exact hpid q (Or.inl h') heq
          · exact hpid q (Or.inr h') heq
    · -- the fold continues with accumulator acc
      have hstep : (b :: tl).foldl
          (fun best q => if best.priority < q.priority then q else best) acc =
          tl.foldl (fun best q => if best.priority < q.priority then q else best) acc := by
        simp [List.foldl, hlt]
      have hacctl : ∀ q ∈ tl, acc.pid < q.pid := by
        intro q hq; exact hacc q (List.mem_cons_of_mem _ hq)
      obtain ⟨hmem, haccle, hmax, hpid⟩ := ih acc hp' hacctl
      rw [hstep]
      refine ⟨?_, ?_, ?_, ?_⟩
      · rcases hmem with h | h
        · exact Or.inl h
        · exact Or.inr (List.mem_cons_of_mem _ h)
      · exact haccle
      · intro q hq
        rcases List.mem_cons.mp hq with h | h
        · subst h
          exact le_trans (not_lt.mp hlt) haccle
      
        · exact hmax q h
      · intro q hq heq
        rcases hq with h | h
        · exact hpid q (Or.inl h) heq
        · rcases List.mem_cons.mp h with h' | h'
          · -- q = b with b.priority ≤ acc.priority: the result already has
            -- acc's priority, whose pid is below b's
            subst h'
            have hble : q.priority ≤ acc.priority := not_lt.mp hlt
            have haccpr : acc.priority =
                (tl.foldl (fun best q => if best.priority < q.priority then q else best)
                  acc).priority := by omega
            have hraccpid := hpid acc (Or.inl rfl) haccpr
            have haccb : acc.pid < q.pid := hacc q (List.mem_cons_self _ _)
            omega
          · exact hpid q (Or.inr h') heq

/-- `selectReady` on a non-empty list with strictly increasing pids returns
the first (hence least-pid) PCB of maximal priority. -/
theorem selectReady_spec (l : List KernelA.PCB) (hne : l ≠ [])
    (hp : l.Pairwise fun p q => p.pid < q.pid) :
    ∃ p, KernelA.selectReady l = some p ∧ p ∈ l ∧
      (∀ q ∈ l, q.priority ≤ p.priority) ∧
      (∀ q ∈ l, q.priority = p.priority → p.pid ≤ q.pid) := by
  match l, hne with
  | a :: rest, _ =>
    have hp' : rest.Pairwise fun p q => p.pid < q.pid := hp.tail
    have hacc : ∀ q ∈ rest, a.pid < q.pid := (List.pairwise_cons.mp hp).1
    obtain ⟨hmem, haccle, hmax, hpid⟩ := selectReady_foldl_spec rest a hp' hacc
    refine ⟨_, rfl, ?_, ?_, ?_⟩
    · rcases hmem with h | h
      · rw [h]; exact List.mem_cons_self _ _
      · exact List.mem_cons_of_mem _ h
    · intro q hq
      rcases List.mem_cons.mp hq with h | h
      · rw [h]; exact haccle
      · exact hmax q h
    · intro q hq heq
      rcases List.mem_cons.mp hq with h | h
      · exact hpid q (Or.inl h) heq
      · exact hpid q (Or.inr h) heq

/-- The pid instrumented out of `KernelA.tick` is exactly the pid selected by
`selectReady` over the post-unblock READY list. -/
theorem tick_resumed (s : KernelA.State) :
    (KernelA.tick s).2 =
      (KernelA.selectReady
        ((s.processes.map (KernelA.unblockPcb (s.time + s.tickMs))).filter
          fun p => p.state = PState.ready)).map (fun p => p.pid) := by
  unfold KernelA.tick
  dsimp only
  cases hsel : KernelA.selectReady
      ((s.processes.map (KernelA.unblockPcb (s.time + s.tickMs))).filter
        fun p => p.state = PState.ready) with
  | none => simp
  | some p =>
    cases hstep : p.routine.step p.lastSyscallResult with
    | crash err => simp [hstep]
    | done v => simp [hstep]
    | yields y k => cases y <;> simp [hstep]

/-! ## Fixtures: concrete routines, PCBs and kernel states -/

/-- A kernel-B routine that logs once and then completes with 0. -/
def logOnceB : KernelB.Routine :=
  .mk fun _ => .yields (.LOG (.vstr "hi")) (.mk fun _ => .done (.vint 0))

/-- A READY kernel-B PCB running `logOnceB`. -/
def readyPcbB (pid : Nat) : KernelB.PCB :=
  { pid := pid, name := "looper", priority := 1, state := .ready,
    blockReason := none, exitCode := none, routine := logOnceB,
    waitingFor := none, nextValue := .vundef, spawnTime := 0 }

/-- A kernel-B state with two READY processes. -/
def stateTwoReadyB : KernelB.State :=
  { tickMs := 50, timeMs := 0, processes := [readyPcbB 1, readyPcbB 2],
    nextPid := 3, logs := [], mailbox := [], ports := [], vfs := [], wallNow := 0 }

/-- A kernel-A routine that logs once and then completes with 0. -/
def logOnceA : KernelA.Routine :=
  .mk fun _ => .yields (.req (.LOG (.vstr "hi"))) (.mk fun _ => .done (.vint 0))

/-- A READY kernel-A PCB with the standard-stream fd table, as `spawn`
builds it. -/
def readyPcbA (pid : Nat) (priority : Int) : KernelA.PCB :=
  { pid := pid, name := "looper", priority := priority, routine := logOnceA,
    state := .ready, wakeTime := none, blockReason := none, waitFrom := none,
    waitPort := none, waitTimeoutAt := none, lastSyscallResult := .vundef,
    exitCode := none, fdTable := [(0, .stdin), (1, .stdout), (2, .stderr)],
    nextFd := 3, heap := [], spawnTime := 0 }

/-- A kernel-A state with two READY processes of priorities 1 and 2. -/
def stateSchedA : KernelA.State :=
  { tickMs := 50, time := 0, processes := [readyPcbA 1 1, readyPcbA 2 2],
    mailboxes := [(1, []), (2, [])], vfs := [], programs := [], ports := [],
    logs := [], globalNextPid := 3, wallNow := 0 }

/-! ## C1 -/

/-- C1 (amended, kernel A): after the timed-unblock pass, if some process is
READY then `tick` resumes exactly one process — the READY process of maximal
priority, and of least pid among those (ties broken by table order, which is
pid order). -/
theorem c1_tick_resumes_unique_highest_priority (s : KernelA.State)
    (hsorted : s.processes.Pairwise fun p q => p.pid < q.pid)
    (hne : (s.processes.map (KernelA.unblockPcb (s.time + s.tickMs))).filter
      (fun p => p.state = PState.ready) ≠ []) :
    ∃ p, KernelA.selectReady
        ((s.processes.map (KernelA.unblockPcb (s.time + s.tickMs))).filter
          fun p => p.state = PState.ready) = some p ∧
      p ∈ (s.processes.map (KernelA.unblockPcb (s.time + s.tickMs))).filter
        (fun p => p.state = PState.ready) ∧
      (∀ q ∈ (s.processes.map (KernelA.unblockPcb (s.time + s.tickMs))).filter
        (fun p => p.state = PState.ready), q.priority ≤ p.priority) ∧
      (∀ q ∈ (s.processes.map (KernelA.unblockPcb (s.time + s.tickMs))).filter
        (fun p => p.state = PState.ready), q.priority = p.priority → p.pid ≤ q.pid) ∧
      (KernelA.tick s).2 = some p.pid := by
  have hmapped : ((s.processes.map (KernelA.unblockPcb (s.time + s.tickMs)))).Pairwise
      fun p q => p.pid < q.pid := by
    refine List.Pairwise.map _ ?_ hsorted
    intro a b hab
    simpa [KernelA.unblockPcb_pid] using hab
  have hready : ((s.processes.map (KernelA.unblockPcb (s.time + s.tickMs))).filter
      fun p => p.state = PState.ready).Pairwise fun p q => p.pid < q.pid :=
    hmapped.filter _
  obtain ⟨p, hsel, hmem, hmax, hpid⟩ := selectReady_spec _ hne hready
  exact ⟨p, hsel, hmem, hmax, hpid, by rw [tick_resumed, hsel]; rfl⟩

/-- C1 witness: in `stateSchedA` (pids 1 and 2, priorities 1 and 2, both
READY) the resumed process is pid 2, the maximal-priority one. -/
theorem c1_witness : ∃ p, KernelA.selectReady
      ((stateSchedA.processes.map
        (KernelA.unblockPcb (stateSchedA.time + stateSchedA.tickMs))).filter
          fun p => p.state = PState.ready) = some p ∧
    p ∈ (stateSchedA.processes.map
        (KernelA.unblockPcb (stateSchedA.time + stateSchedA.tickMs))).filter
      (fun p => p.state = PState.ready) ∧
    (∀ q ∈ (stateSchedA.processes.map
        (KernelA.unblockPcb (stateSchedA.time + stateSchedA.tickMs))).filter
      (fun p => p.state = PState.ready), q.priority ≤ p.priority) ∧
    (∀ q ∈ (stateSchedA.processes.map
        (KernelA.unblockPcb (stateSchedA.time + stateSchedA.tickMs))).filter
      (fun p => p.state = PState.ready), q.priority = p.priority → p.pid ≤ q.pid) ∧
    (KernelA.tick stateSchedA).2 = some p.pid :=
  c1_tick_resumes_unique_highest_priority stateSchedA
    (by simp [stateSchedA, readyPcbA, List.pairwise_cons])
    (by apply List.ne_nil_of_length_pos; decide)

/-- C1 counterexample (kernel B, `src/kernel.js` lines 47–54): in a state
with two READY processes, one `tick()` resumes both of them (the instrumented
resume count is 2, not at most 1), refuting "at most one process advances per
tick" for this kernel. -/
theorem c1_counterexample :
    stateTwoReadyB.processes.length = 2 ∧
    ((stateTwoReadyB.processes.map fun p => p.state) = [.ready, .ready]) ∧
    (KernelB.tickRun 10 stateTwoReadyB).map Prod.snd = some 2 :=
  ⟨rfl, rfl, rfl⟩

/-! ## C2 -/

namespace KernelA

/-- Whether a `tick()` call ended with an exception escaping to the host. -/
def TickOutcome.isThrown : TickOutcome → Bool
  | .thrown _ _ => true
  | .ok _ => false

/-- The escaped exception, if any. -/
def TickOutcome.thrownErr : TickOutcome → Option String
  | .thrown err _ => some err
  | .ok _ => none

end KernelA

/-- A kernel-A routine whose next resume throws. -/
def crashRoutineA : KernelA.Routine := .mk fun _ => .crash "boom"

/-- A READY kernel-A PCB about to crash. -/
def pcbCrashA : KernelA.PCB :=
  { pid := 1, name := "crasher", priority := 1, routine := crashRoutineA,
    state := .ready, wakeTime := none, blockReason := none, waitFrom := none,
    waitPort := none, waitTimeoutAt := none, lastSyscallResult := .vundef,
    exitCode := none, fdTable := [(0, .stdin), (1, .stdout), (2, .stderr)],
    nextFd := 3, heap := [], spawnTime := 0 }

/-- A kernel-A state whose only process crashes on resume. -/
def stateCrashA : KernelA.State :=
  { tickMs := 50, time := 0, processes := [pcbCrashA], mailboxes := [(1, [])],
    vfs := [], programs := [], ports := [], logs := [], globalNextPid := 2,
    wallNow := 0 }

/-- A kernel-B routine whose next resume throws. -/
def crashRoutineB : KernelB.Routine := .mk fun _ => .crash "boom"

/-- A READY kernel-B PCB about to crash. -/
def pcbCrashB : KernelB.PCB :=
  { pid := 1, name := "crasher", priority := 1, state := .ready,
    blockReason := none, exitCode := none, routine := crashRoutineB,
    waitingFor := none, nextValue := .vundef, spawnTime := 0 }

/-- A kernel-B state whose only process crashes on resume. -/
def stateCrashB : KernelB.State :=
  { tickMs := 50, timeMs := 0, processes := [pcbCrashB], nextPid := 2,
    logs := [], mailbox := [], ports := [], vfs := [], wallNow := 0 }

/-- The entry just pushed by `_log` is in the resulting log (the ring cap
drops only the oldest entry). -/
theorem mem_logB_last (s : KernelB.State) (pid : Nat) (m : Value) :
    KernelB.LogEntry.mk s.wallNow pid m ∈ (KernelB.logB s pid m).logs := by
  unfold KernelB.logB
  dsimp only
  split
  · cases hl : s.logs with
    | nil =>
      rename_i hlen
      rw [hl] at hlen
      simp at hlen
    | cons x xs => simp
  · simp

/-- C2 (amended, kernel B): a routine that throws during a resume is caught
by `_runProcess`: the kernel logs `Process crashed: …`, marks the PCB
TERMINATED with `exit_code = 1`, clears the block reason, and returns
normally (in the part_001 kernel the exception instead escapes `tick`, see
the counterexample). -/
theorem c2_crash_is_caught (s : KernelB.State) (pid : Nat) (pcb : KernelB.PCB)
    (err : String)
    (hfind : KernelB.findPcb s pid = some pcb)
    (hstate : ¬ pcb.state = PState.terminated)
    (hcrash : pcb.routine.step pcb.nextValue = .crash err) :
    KernelB.findPcb (KernelB.runProcess s pid) pid =
      some {pcb with state := .terminated, nextValue := .vundef,
                     blockReason := none, exitCode := some 1} ∧
    KernelB.LogEntry.mk s.wallNow pid (.vstr ("Process crashed: " ++ err)) ∈
      (KernelB.runProcess s pid).logs := by
  unfold KernelB.runProcess
  rw [hfind]
  dsimp only
  rw [if_neg hstate, hcrash]
  dsimp only
  constructor
  · rw [KernelB.findPcb_updB
      (KernelB.logB (KernelB.updB s pid fun p =>
        {p with state := PState.running, nextValue := Value.vundef}) pid
        (Value.vstr ("Process crashed: " ++ err))) pid
      (fun p => {p with state := PState.terminated, blockReason := none,
                        exitCode := some 1})
      (fun _ => rfl)]
    have h2 : KernelB.findPcb
        (KernelB.logB (KernelB.updB s pid fun p =>
          {p with state := .running, nextValue := .vundef}) pid
          (.vstr ("Process crashed: " ++ err))) pid =
        KernelB.findPcb (KernelB.updB s pid fun p =>
          {p with state := .running, nextValue := .vundef}) pid := rfl
    rw [h2, KernelB.findPcb_updB s pid
      (fun p => {p with state := PState.running, nextValue := Value.vundef})
      (fun _ => rfl), hfind]
    rfl
  · have hwall : (KernelB.updB s pid fun p =>
        {p with state := .running, nextValue := .vundef}).wallNow = s.wallNow := rfl
    have := mem_logB_last (KernelB.updB s pid fun p =>
      {p with state := .running, nextValue := .vundef}) pid
      (.vstr ("Process crashed: " ++ err))
    rw [hwall] at this
    exact this

/-- C2 witness: a concrete crashing process in kernel B ends TERMINATED with
exit code 1 and a `Process crashed: boom` log entry. -/
theorem c2_witness :
    KernelB.findPcb (KernelB.runProcess stateCrashB 1) 1 =
      some {pcbCrashB with state := .terminated, nextValue := .vundef,
                           blockReason := none, exitCode := some 1} ∧
    KernelB.LogEntry.mk stateCrashB.wallNow 1
      (.vstr ("Process crashed: " ++ "boom")) ∈
      (KernelB.runProcess stateCrashB 1).logs :=
  c2_crash_is_caught stateCrashB 1 pcbCrashB "boom" rfl (by decide) rfl

/-- C2 counterexample (kernel A, `src/unnamed/part_001` lines 373–390): the
`pcb.iterator.next(...)` call in that kernel's `tick` is not guarded, so a
crashing routine makes the exception escape `tick` to the host — refuting
"no exception ever propagates out of tick" for this kernel. -/
theorem c2_counterexample :
    (KernelA.tick stateCrashA).1.isThrown = true ∧
    (KernelA.tick stateCrashA).1.thrownErr = some "boom" :=
  ⟨rfl, rfl⟩


/-! ## C3 -/

/-- A kernel-A PCB blocked in `sleep` exactly as the `SLEEP` dispatch leaves
it (`lastSyscallResult` is the `null` the syscall returned). -/
def pcbSleeperA : KernelA.PCB :=
  { pid := 1, name := "sleeper", priority := 1, routine := logOnceA,
    state := .blocked, wakeTime := some 80, blockReason := some .sleep,
    waitFrom := none, waitPort := none, waitTimeoutAt := none,
    lastSyscallResult := .vnull, exitCode := none,
    fdTable := [(0, .stdin), (1, .stdout), (2, .stderr)], nextFd := 3,
    heap := [], spawnTime := 0 }

/-- C3 (amended): the timed-unblock pass sets a due sleeper to READY and
clears the sleep fields, but leaves `pending_result` exactly as it was — the
null stored when the SLEEP syscall blocked — not a truthy success
sentinel. -/
theorem c3_sleep_unblock_keeps_null_result (t : Nat) (pcb : KernelA.PCB)
    (w : Nat) (hstate : pcb.state = PState.blocked)
    (hreason : pcb.blockReason = some BlockReason.sleep)
    (hwake : pcb.wakeTime = some w) (hdue : w ≤ t) :
    KernelA.unblockPcb t pcb =
      {pcb with state := .ready, blockReason := none, wakeTime := none} := by
  have hdueb : KernelA.due pcb.wakeTime t = true := by
    rw [hwake]; simp [KernelA.due, hdue]
  unfold KernelA.unblockPcb
  simp [hstate, hreason, hdueb]

/-- C3 witness: the sleeper with wake time 80 is woken at logical time 100
with the sleep fields cleared and `pending_result` untouched. -/
theorem c3_witness : KernelA.unblockPcb 100 pcbSleeperA =
    {pcbSleeperA with state := .ready, blockReason := none, wakeTime := none} :=
  c3_sleep_unblock_keeps_null_result 100 pcbSleeperA 80 rfl rfl rfl (by decide)

/-- C3 counterexample: the woken sleeper's injected value is the `null` the
`SLEEP` syscall returned — a falsy value, not a truthy success sentinel as
the claim states; the last conjunct shows the `SLEEP` dispatch returning
`null`. -/
theorem c3_counterexample :
    (KernelA.unblockPcb 100 pcbSleeperA).state = PState.ready ∧
    (KernelA.unblockPcb 100 pcbSleeperA).blockReason = none ∧
    (KernelA.unblockPcb 100 pcbSleeperA).wakeTime = none ∧
    (KernelA.unblockPcb 100 pcbSleeperA).lastSyscallResult = Value.vnull ∧
    (KernelA.unblockPcb 100 pcbSleeperA).lastSyscallResult.truthy = false ∧
    (KernelA.handleSyscall stateSchedA (readyPcbA 1 1) (.SLEEP (some 30))).2 =
      Value.vnull :=
  ⟨rfl, rfl, rfl, rfl, rfl, rfl⟩

/-! ## C4 -/

theorem KernelA.updA_ports (s : KernelA.State) (pid : Nat) (f : PCB → PCB) :
    (KernelA.updA s pid f).ports = s.ports := rfl

theorem KernelA.updA_mailboxes (s : KernelA.State) (pid : Nat) (f : PCB → PCB) :
    (KernelA.updA s pid f).mailboxes = s.mailboxes := rfl

theorem KernelA.updA_vfs (s : KernelA.State) (pid : Nat) (f : PCB → PCB) :
    (KernelA.updA s pid f).vfs = s.vfs := rfl

/-- `LISTEN` on an unclaimed port: success, and the caller becomes owner. -/
theorem listen_fresh (s : KernelA.State) (pcb : KernelA.PCB) (port : Int)
    (h : lookupL s.ports (KernelA.normalizePortKey port) = none) :
    (KernelA.handleSyscall s pcb (.LISTEN port)).2 = .vbool true ∧
    (KernelA.handleSyscall s pcb (.LISTEN port)).1.ports =
      setL s.ports (KernelA.normalizePortKey port) ⟨pcb.pid, []⟩ := by
  simp only [KernelA.handleSyscall]
  rw [h]
  exact ⟨rfl, rfl⟩

/-- `LISTEN` on any existing port: failure sentinel, registry untouched. -/
theorem listen_taken (s : KernelA.State) (pcb : KernelA.PCB) (port : Int)
    (e : KernelA.PortEntry)
    (h : lookupL s.ports (KernelA.normalizePortKey port) = some e) :
    (KernelA.handleSyscall s pcb (.LISTEN port)).2 = .vbool false ∧
    (KernelA.handleSyscall s pcb (.LISTEN port)).1.ports = s.ports := by
  simp only [KernelA.handleSyscall]
  rw [h]
  exact ⟨rfl, rfl⟩

/-- `UNLISTEN` by the owner: success, and the entry is deleted. -/
theorem unlisten_owner (s : KernelA.State) (pcb : KernelA.PCB) (port : Int)
    (h : lookupL s.ports (KernelA.normalizePortKey port) =
      some ⟨pcb.pid, []⟩) :
    (KernelA.handleSyscall s pcb (.UNLISTEN port)).2 = .vbool true ∧
    (KernelA.handleSyscall s pcb (.UNLISTEN port)).1.ports =
      eraseL s.ports (KernelA.normalizePortKey port) := by
  simp only [KernelA.handleSyscall]
  rw [h]
  simp [KernelA.updA_ports]

/-- A RUNNING kernel-A PCB (mid-dispatch), pid 1. -/
def pcbOwnerA : KernelA.PCB :=
  { pid := 1, name := "owner", priority := 1, routine := logOnceA,
    state := .running, wakeTime := none, blockReason := none, waitFrom := none,
    waitPort := none, waitTimeoutAt := none, lastSyscallResult := .vundef,
    exitCode := none, fdTable := [(0, .stdin), (1, .stdout), (2, .stderr)],
    nextFd := 3, heap := [], spawnTime := 0 }

/-- A kernel-A state in which pid 1 already owns port 7000. -/
def statePortOwnedA : KernelA.State :=
  { tickMs := 50, time := 0, processes := [pcbOwnerA],
    mailboxes := [(1, [])], vfs := [], programs := [],
    ports := [("7000", ⟨1, []⟩)], logs := [], globalNextPid := 2, wallNow := 0 }

/-- C4 (amended): in the part_001 kernel, `listen` on a port that already
exists returns the failure sentinel and leaves the port registry unchanged —
even when the caller is the owner, so re-`listen` is NOT an idempotent
success; on an unclaimed port, `listen; unlisten; listen` by one process
returns the success sentinel all three times.  (In `src/kernel.js` an
owner's re-`listen` does succeed, but `unlisten` is not a recognized syscall
there.) -/
theorem c4_listen_unlisten_listen :
    (∀ (s : KernelA.State) (pcb : KernelA.PCB) (port : Int),
      lookupL s.ports (KernelA.normalizePortKey port) = none →
      (KernelA.handleSyscall s pcb (.LISTEN port)).2 = .vbool true ∧
      (KernelA.handleSyscall (KernelA.handleSyscall s pcb (.LISTEN port)).1 pcb
        (.UNLISTEN port)).2 = .vbool true ∧
      (KernelA.handleSyscall (KernelA.handleSyscall (KernelA.handleSyscall s pcb
        (.LISTEN port)).1 pcb (.UNLISTEN port)).1 pcb (.LISTEN port)).2 =
        .vbool true) ∧
    (∀ (s : KernelA.State) (pcb : KernelA.PCB) (port : Int) (e : KernelA.PortEntry),
      lookupL s.ports (KernelA.normalizePortKey port) = some e →
      (KernelA.handleSyscall s pcb (.LISTEN port)).2 = .vbool false ∧
      (KernelA.handleSyscall s pcb (.LISTEN port)).1.ports = s.ports) := by
  constructor
  · intro s pcb port hfresh
    obtain ⟨h1v, h1p⟩ := listen_fresh s pcb port hfresh
    have h2look : lookupL (KernelA.handleSyscall s pcb (.LISTEN port)).1.ports
        (KernelA.normalizePortKey port) = some ⟨pcb.pid, []⟩ := by
      rw [h1p]; exact lookupL_setL_self _ _ _
    obtain ⟨h2v, h2p⟩ := unlisten_owner _ pcb port h2look
    have h2p' : (KernelA.handleSyscall (KernelA.handleSyscall s pcb
        (.LISTEN port)).1 pcb (.UNLISTEN port)).1.ports = s.ports := by
      rw [h2p, h1p, lookupL_none_setL_append _ _ _ hfresh,
        eraseL_append_singleton _ _ _ hfresh]
    obtain ⟨h3v, _⟩ := listen_fresh _ pcb port (by rw [h2p']; exact hfresh)
    exact ⟨h1v, h2v, h3v⟩
  · intro s pcb port e hsome
    exact listen_taken s pcb port e hsome

/-- C4 witness: with no port "9000", pid 1's `listen(9000); unlisten(9000);
listen(9000)` all succeed; and with port "7000" owned by pid 1 a foreign
`listen(7000)` by pid 2 fails without changing the registry. -/
theorem c4_witness :
    ((KernelA.handleSyscall statePortOwnedA pcbOwnerA (.LISTEN 9000)).2 =
      .vbool true ∧
     (KernelA.handleSyscall (KernelA.handleSyscall statePortOwnedA pcbOwnerA
       (.LISTEN 9000)).1 pcbOwnerA (.UNLISTEN 9000)).2 = .vbool true ∧
     (KernelA.handleSyscall (KernelA.handleSyscall (KernelA.handleSyscall
       statePortOwnedA pcbOwnerA (.LISTEN 9000)).1 pcbOwnerA
       (.UNLISTEN 9000)).1 pcbOwnerA (.LISTEN 9000)).2 = .vbool true) ∧
    ((KernelA.handleSyscall statePortOwnedA (readyPcbA 2 1) (.LISTEN 7000)).2 =
      .vbool false ∧
     (KernelA.handleSyscall statePortOwnedA (readyPcbA 2 1)
       (.LISTEN 7000)).1.ports = statePortOwnedA.ports) :=
  ⟨c4_listen_unlisten_listen.1 statePortOwnedA pcbOwnerA 9000 rfl,
   c4_listen_unlisten_listen.2 statePortOwnedA (readyPcbA 2 1) 7000 ⟨1, []⟩ rfl⟩

/-- C4 counterexample: pid 1 already owns port "7000", yet a further
`listen(7000)` by pid 1 returns `false` (the failure sentinel), refuting the
claimed idempotent success of re-`listen` in the part_001 kernel (the port
entry is at least left unchanged). -/
theorem c4_counterexample :
    lookupL statePortOwnedA.ports "7000" = some ⟨1, []⟩ ∧
    (KernelA.handleSyscall statePortOwnedA pcbOwnerA (.LISTEN 7000)).2 =
      .vbool false ∧
    (KernelA.handleSyscall statePortOwnedA pcbOwnerA (.LISTEN 7000)).1.ports =
      statePortOwnedA.ports :=
  ⟨rfl, rfl, rfl⟩

/-! ## C5 -/

/-- Every entry of `updA s pid (set READY)` carrying `pid` is READY. -/
theorem mem_updA_ready (s : KernelA.State) (pid : Nat) :
    ∀ q ∈ (KernelA.updA s pid fun p => {p with state := PState.ready}).processes,
      q.pid = pid → q.state = PState.ready := by
  intro q hq hqp
  unfold KernelA.updA at hq
  dsimp only at hq
  obtain ⟨p, _hp, rfl⟩ := List.mem_map.mp hq
  by_cases h : p.pid = pid
  · simp [h]
  · simp only [if_neg h] at hqp ⊢
    exact absurd hqp h

/-- Every entry of the kernel-B SEND caller update carrying `pid` is READY
with `nextValue = true`. -/
theorem mem_updB_sendDone (s : KernelB.State) (pid : Nat) :
    ∀ q ∈ (KernelB.updB s pid fun p =>
        {p with state := PState.ready, blockReason := none,
                nextValue := Value.vbool true}).processes,
      q.pid = pid → q.state = PState.ready ∧ q.nextValue = Value.vbool true := by
  intro q hq hqp
  unfold KernelB.updB at hq
  dsimp only at hq
  obtain ⟨p, _hp, rfl⟩ := List.mem_map.mp hq
  by_cases h : p.pid = pid
  · simp [h]
  · simp only [if_neg h] at hqp ⊢
    exact absurd hqp h

/-- The wake-sleepers loop preserves "every entry with `pid` is READY with
`nextValue = true`" (it only ever turns BLOCKED sleepers into exactly such
entries). -/
theorem mem_wakeSleepers_pid (s : KernelB.State) (pid : Nat)
    (h : ∀ q ∈ s.processes, q.pid = pid →
      q.state = PState.ready ∧ q.nextValue = Value.vbool true) :
    ∀ q ∈ (KernelB.wakeSleepers s).processes, q.pid = pid →
      q.state = PState.ready ∧ q.nextValue = Value.vbool true := by
  intro q hq hqp
  unfold KernelB.wakeSleepers at hq
  dsimp only at hq
  obtain ⟨p, hp, rfl⟩ := List.mem_map.mp hq
  by_cases hc : p.state = PState.blocked ∧
      KernelB.sleepDue p.waitingFor s.timeMs = true
  · rw [if_pos hc]
    exact ⟨rfl, rfl⟩
  · rw [if_neg hc] at hqp ⊢
    exact h p hp hqp

/-- C5 (amended): in both kernels `send` always returns the success sentinel
and leaves the caller READY, for every destination pid.  In the part_001
kernel the message is moreover appended to a mailbox keyed by the destination
pid, created on demand, so a send to a pid with no live process is buffered,
not dropped.  (In `src/kernel.js` the append is guarded by `_findPcb`, so a
send to an unknown pid still succeeds but silently drops the message, see the
counterexample.) -/
theorem c5_send_buffers_for_unknown_pid :
    (∀ (s : KernelA.State) (pcb : KernelA.PCB) (toPid : Nat) (message : Value),
      (KernelA.handleSyscall s pcb (.SEND toPid message)).2 = .vbool true ∧
      ∀ q ∈ (KernelA.handleSyscall s pcb (.SEND toPid message)).1.processes,
        q.pid = pcb.pid → q.state = PState.ready) ∧
    (∀ (s : KernelB.State) (pcb : KernelB.PCB) (toPid : Nat) (payload : Value),
      ∀ q ∈ (KernelB.handleSyscall s pcb (.SEND toPid payload)).processes,
        q.pid = pcb.pid → q.state = PState.ready ∧
          q.nextValue = Value.vbool true) ∧
    (∀ (s : KernelA.State) (pcb : KernelA.PCB) (toPid : Nat) (message : Value),
      (∀ q ∈ s.processes, q.pid ≠ toPid) →
      lookupL (KernelA.handleSyscall s pcb (.SEND toPid message)).1.mailboxes
        toPid =
        some ((lookupL s.mailboxes toPid).getD [] ++
          [MailMsg.mk pcb.pid message s.time])) := by
  refine ⟨?_, ?_, ?_⟩
  · intro s pcb toPid message
    refine ⟨rfl, ?_⟩
    simp only [KernelA.handleSyscall]
    exact mem_updA_ready _ pcb.pid
  · intro s pcb toPid payload
    simp only [KernelB.handleSyscall]
    exact mem_wakeSleepers_pid _ pcb.pid (mem_updB_sendDone _ pcb.pid)
  · intro s pcb toPid message hnone
    simp only [KernelA.handleSyscall]
    rw [KernelA.sendWakeLoop_no_match toPid s.processes _ hnone]
    rw [KernelA.updA_mailboxes]
    dsimp only
    rw [lookupL_setL_self]
    by_cases h : (lookupL s.mailboxes toPid).isNone
    · rw [if_pos h, lookupL_setL_self]
      rw [Option.isNone_iff_eq_none] at h
      rw [h]
      rfl
    · rw [if_neg h]

/-- A kernel-B RUNNING PCB, pid 1 (mid-dispatch). -/
def pcbSenderB : KernelB.PCB :=
  { pid := 1, name := "sender", priority := 1, state := .running,
    blockReason := none, exitCode := none, routine := logOnceB,
    waitingFor := none, nextValue := .vundef, spawnTime := 0 }

/-- A kernel-B state with only pid 1 alive and empty registries. -/
def stateSenderB : KernelB.State :=
  { tickMs := 50, timeMs := 0, processes := [pcbSenderB], nextPid := 2,
    logs := [], mailbox := [], ports := [], vfs := [], wallNow := 0 }

/-- C5 witness: pid 1 sends to the non-existent pid 42 in both kernels — in
kernel A the syscall returns true and the message sits buffered in mailbox
42; in kernel B every PCB carrying the sender's pid ends READY with
`nextValue = true`. -/
theorem c5_witness :
    (KernelA.handleSyscall statePortOwnedA pcbOwnerA
      (.SEND 42 (.vstr "hello"))).2 = .vbool true ∧
    lookupL (KernelA.handleSyscall statePortOwnedA pcbOwnerA
      (.SEND 42 (.vstr "hello"))).1.mailboxes 42 =
      some ((lookupL statePortOwnedA.mailboxes 42).getD [] ++
        [MailMsg.mk pcbOwnerA.pid (.vstr "hello") statePortOwnedA.time]) ∧
    (∀ q ∈ (KernelB.handleSyscall stateSenderB pcbSenderB
        (.SEND 42 (.vstr "hello"))).processes,
      q.pid = pcbSenderB.pid → q.state = PState.ready ∧
        q.nextValue = Value.vbool true) :=
  ⟨(c5_send_buffers_for_unknown_pid.1 statePortOwnedA pcbOwnerA 42
      (.vstr "hello")).1,
   c5_send_buffers_for_unknown_pid.2.2 statePortOwnedA pcbOwnerA 42
     (.vstr "hello")
     (by intro q hq
         rcases List.mem_singleton.mp hq with rfl
         decide),
   c5_send_buffers_for_unknown_pid.2.1 stateSenderB pcbSenderB 42
     (.vstr "hello")⟩

/-- C5 counterexample (kernel B, `src/kernel.js` lines 195–219): `SEND` to
the unknown pid 42 returns the success sentinel and leaves the caller READY,
but no mailbox keyed by 42 exists afterwards — the message was dropped, not
buffered, refuting the claim for this kernel. -/
theorem c5_counterexample :
    lookupL (KernelB.handleSyscall stateSenderB pcbSenderB
      (.SEND 42 (.vstr "hello"))).mailbox 42 = none ∧
    (KernelB.findPcb (KernelB.handleSyscall stateSenderB pcbSenderB
      (.SEND 42 (.vstr "hello"))) 1).map (fun p => p.state) =
      some PState.ready ∧
    (KernelB.findPcb (KernelB.handleSyscall stateSenderB pcbSenderB
      (.SEND 42 (.vstr "hello"))) 1).map (fun p => p.nextValue.truthy) =
      some true :=
  ⟨rfl, rfl, rfl⟩

/-! ## C6 -/

/-- C6: a port owner that calls `recv_from_port(port, tmo)` on an empty
queue blocks with `wait_timeout_at = time + tmo` and gets `null` as the
immediate return; the timed-unblock pass (run by `tick` right after
advancing the clock, before selection) turns any such blocked PCB READY at
every tick whose time has reached the deadline, clears the wait fields, and
injects `null` — a value no real port message equals. -/
theorem c6_recv_port_timeout (s : KernelA.State) (pcb : KernelA.PCB)
    (port : Int) (tmo : Nat)
    (hport : lookupL s.ports (KernelA.normalizePortKey port) =
      some ⟨pcb.pid, []⟩) :
    (KernelA.dispatch s pcb (.RECV_PORT port (some tmo))).2 = .vnull ∧
    KernelA.findProc (KernelA.dispatch s pcb
        (.RECV_PORT port (some tmo))).1 pcb.pid =
      (KernelA.findProc s pcb.pid).map (fun p =>
        {p with state := .blocked, blockReason := some .recv_port,
                waitPort := some (KernelA.normalizePortKey port),
                waitTimeoutAt := some (s.time + tmo),
                lastSyscallResult := .vnull}) ∧
    (∀ (t : Nat) (p' : KernelA.PCB), p'.state = PState.blocked →
      p'.blockReason = some BlockReason.recv_port →
      p'.waitTimeoutAt = some (s.time + tmo) → s.time + tmo ≤ t →
      KernelA.unblockPcb t p' =
        {p' with state := .ready, blockReason := none, waitPort := none,
                 waitTimeoutAt := none, lastSyscallResult := .vnull}) ∧
    (∀ m : PortMsg, Value.vportMsg m ≠ Value.vnull) := by
  refine ⟨?_, ?_, ?_, ?_⟩
  · unfold KernelA.dispatch
    simp only [KernelA.handleSyscall]
    rw [hport]
    simp
  · have hv : (KernelA.handleSyscall s pcb (.RECV_PORT port (some tmo))).2 =
        Value.vnull := by
      simp only [KernelA.handleSyscall]
      rw [hport]
      simp
    have hs1 : (KernelA.handleSyscall s pcb (.RECV_PORT port (some tmo))).1 =
        KernelA.updA s pcb.pid (fun p =>
          {p with state := .blocked, blockReason := some .recv_port,
                  waitPort := some (KernelA.normalizePortKey port),
                  waitTimeoutAt := some (s.time + tmo)}) := by
      simp only [KernelA.handleSyscall]
      rw [hport]
      dsimp only
      rw [if_neg (by simp)]
      rfl
    unfold KernelA.dispatch
    dsimp only
    rw [KernelA.findProc_updA
      ((KernelA.handleSyscall s pcb (.RECV_PORT port (some tmo))).1) pcb.pid
      (fun p => {p with lastSyscallResult :=
        (KernelA.handleSyscall s pcb (.RECV_PORT port (some tmo))).2})
      (fun _ => rfl)]
    rw [hs1]
    rw [KernelA.findProc_updA s pcb.pid
      (fun p =>
        {p with state := .blocked, blockReason := some .recv_port,
                waitPort := some (KernelA.normalizePortKey port),
                waitTimeoutAt := some (s.time + tmo)})
      (fun _ => rfl)]
    simp only [hv]
    cases KernelA.findProc s pcb.pid <;> rfl
  · intro t p' hstate hreason hwta hdue
    have hdueb : KernelA.due p'.waitTimeoutAt t = true := by
      rw [hwta]; simp [KernelA.due, hdue]
    unfold KernelA.unblockPcb
    simp [hstate, hreason, hdueb]
  · intro m h
    cases h

/-- C6 witness: pid 1 owns port "7000" with an empty queue in
`statePortOwnedA`; `recv_from_port(7000, 100)` blocks with deadline 100 and
the unblock pass wakes such a PCB at any time ≥ 100 with `null` injected. -/
theorem c6_witness :
    (KernelA.dispatch statePortOwnedA pcbOwnerA
      (.RECV_PORT 7000 (some 100))).2 = .vnull ∧
    KernelA.findProc (KernelA.dispatch statePortOwnedA pcbOwnerA
        (.RECV_PORT 7000 (some 100))).1 pcbOwnerA.pid =
      (KernelA.findProc statePortOwnedA pcbOwnerA.pid).map (fun p =>
        {p with state := .blocked, blockReason := some .recv_port,
                waitPort := some (KernelA.normalizePortKey 7000),
                waitTimeoutAt := some (statePortOwnedA.time + 100),
                lastSyscallResult := .vnull}) ∧
    (∀ (t : Nat) (p' : KernelA.PCB), p'.state = PState.blocked →
      p'.blockReason = some BlockReason.recv_port →
      p'.waitTimeoutAt = some (statePortOwnedA.time + 100) →
      statePortOwnedA.time + 100 ≤ t →
      KernelA.unblockPcb t p' =
        {p' with state := .ready, blockReason := none, waitPort := none,
                 waitTimeoutAt := none, lastSyscallResult := .vnull}) ∧
    (∀ m : PortMsg, Value.vportMsg m ≠ Value.vnull) :=
  c6_recv_port_timeout statePortOwnedA pcbOwnerA 7000 100 rfl


/-! ## C7 -/

/-- A RUNNING kernel-A PCB holding fd 3 open on "/f" at position 3. -/
def pcbReaderA : KernelA.PCB :=
  { pid := 1, name := "reader", priority := 1, routine := logOnceA,
    state := .running, wakeTime := none, blockReason := none, waitFrom := none,
    waitPort := none, waitTimeoutAt := none, lastSyscallResult := .vundef,
    exitCode := none,
    fdTable := [(0, .stdin), (1, .stdout), (2, .stderr),
                (3, .file "/f" 3 "r")],
    nextFd := 4, heap := [], spawnTime := 0 }

/-- A RUNNING kernel-A PCB holding fd 3 open on "/f" at position 7 (past the
5-character content). -/
def pcbReaderEofA : KernelA.PCB :=
  { pcbReaderA with fdTable := [(0, .stdin), (1, .stdout), (2, .stderr),
                               (3, .file "/f" 7 "r")] }

/-- A kernel-A state with the 5-character file "/f" = "hello". -/
def stateReaderA : KernelA.State :=
  { tickMs := 50, time := 0, processes := [pcbReaderA], mailboxes := [(1, [])],
    vfs := [("/f", "hello")], programs := [], ports := [], logs := [],
    globalNextPid := 2, wallNow := 0 }

/-- C7 (amended): `read(fd, n)` at position `pos` returns the substring
clamped to the end of the file, but advances the position to exactly
`pos + n` — even past end-of-file — whenever `pos` is inside the content;
at or past the end it returns the empty value and leaves the position
unchanged. -/
theorem c7_read_sets_pos_to_start_plus_n (s : KernelA.State)
    (pcb : KernelA.PCB) (fd : Nat) (path : String) (pos : Nat) (mode : String)
    (n : Nat) (hfd : lookupL pcb.fdTable fd = some (.file path pos mode)) :
    (pos < ((lookupL s.vfs path).getD "").length →
      (KernelA.handleSyscall s pcb (.READ fd (some n))).2 =
        .vstr (KernelA.jsSlice ((lookupL s.vfs path).getD "") pos (pos + n)) ∧
      KernelA.findProc (KernelA.handleSyscall s pcb
          (.READ fd (some n))).1 pcb.pid =
        (KernelA.findProc s pcb.pid).map (fun p =>
          {p with state := .ready,
                  fdTable := setL p.fdTable fd (.file path (pos + n) mode)})) ∧
    (((lookupL s.vfs path).getD "").length ≤ pos →
      (KernelA.handleSyscall s pcb (.READ fd (some n))).2 = .vstr "" ∧
      KernelA.findProc (KernelA.handleSyscall s pcb
          (.READ fd (some n))).1 pcb.pid =
        (KernelA.findProc s pcb.pid).map (fun p => {p with state := .ready})) := by
  constructor
  · intro hlt
    have hnot : ¬ pos ≥ ((lookupL s.vfs path).getD "").length := by omega
    constructor
    · simp only [KernelA.handleSyscall]
      rw [hfd]
      dsimp only
      rw [if_neg hnot]
    · simp only [KernelA.handleSyscall]
      rw [hfd]
      dsimp only
      rw [if_neg hnot]
      rw [KernelA.findProc_updA s pcb.pid
        (fun p => {p with state := .ready,
                          fdTable := setL p.fdTable fd (.file path (pos + n) mode)})
        (fun _ => rfl)]
  · intro hge
    have hyes : pos ≥ ((lookupL s.vfs path).getD "").length := hge
    constructor
    · simp only [KernelA.handleSyscall]
      rw [hfd]
      dsimp only
      rw [if_pos hyes]
    · simp only [KernelA.handleSyscall]
      rw [hfd]
      dsimp only
      rw [if_pos hyes]
      rw [KernelA.findProc_updA s pcb.pid
        (fun p => {p with state := .ready}) (fun _ => rfl)]

/-- C7 witness: reading 10 units of the 5-character "hello" from position 3
yields "lo" and position 13; reading from position 7 (past the end) yields
"" with the fd table untouched. -/
theorem c7_witness :
    ((3 : Nat) < 5 ∧
     (KernelA.handleSyscall stateReaderA pcbReaderA (.READ 3 (some 10))).2 =
       .vstr (KernelA.jsSlice ((lookupL stateReaderA.vfs "/f").getD "") 3
         (3 + 10)) ∧
     KernelA.findProc (KernelA.handleSyscall stateReaderA pcbReaderA
         (.READ 3 (some 10))).1 pcbReaderA.pid =
       (KernelA.findProc stateReaderA pcbReaderA.pid).map (fun p =>
         {p with state := .ready,
                 fdTable := setL p.fdTable 3 (.file "/f" (3 + 10) "r")})) ∧
    ((5 : Nat) ≤ 7 ∧
     (KernelA.handleSyscall stateReaderA pcbReaderEofA (.READ 3 (some 10))).2 =
       .vstr "" ∧
     KernelA.findProc (KernelA.handleSyscall stateReaderA pcbReaderEofA
         (.READ 3 (some 10))).1 pcbReaderEofA.pid =
       (KernelA.findProc stateReaderA pcbReaderEofA.pid).map (fun p =>
         {p with state := .ready})) := by
  have h1 := (c7_read_sets_pos_to_start_plus_n stateReaderA pcbReaderA 3 "/f" 3
    "r" 10 rfl).1 (by decide)
  have h2 := (c7_read_sets_pos_to_start_plus_n stateReaderA pcbReaderEofA 3
    "/f" 7 "r" 10 rfl).2 (by decide)
  exact ⟨⟨by decide, h1.1, h1.2⟩, ⟨by decide, h2.1, h2.2⟩⟩

/-- C7 counterexample: the claim demands that a read hitting end-of-file
advance the position only by the units actually read (here 2, so to
position 5); the code instead sets the position to `pos + n` = 13.
Concretely: fd 3 on "hello" at position 3, `read(3, 10)` returns "lo" but
leaves the descriptor at position 13, not 5. -/
theorem c7_counterexample :
    (KernelA.handleSyscall stateReaderA pcbReaderA (.READ 3 (some 10))).2 =
      .vstr "lo" ∧
    ((KernelA.findProc (KernelA.handleSyscall stateReaderA pcbReaderA
        (.READ 3 (some 10))).1 1).map fun p => lookupL p.fdTable 3) =
      some (some (.file "/f" 13 "r")) ∧
    ¬ (((KernelA.findProc (KernelA.handleSyscall stateReaderA pcbReaderA
        (.READ 3 (some 10))).1 1).map fun p => lookupL p.fdTable 3) =
      some (some (.file "/f" 5 "r"))) :=
  ⟨rfl, rfl, by decide⟩

/-! ## C8 -/

/-- C8: `write(fd, d)` at position `pos` replaces the range
`[pos, pos + |d|)` of the content (extending the file as needed, never
shifting the suffix at `pos + |d|`), appends when `pos` is at or past the
end, advances the position to `pos + |d|`, and returns `|d|`. -/
theorem c8_write_overlap (s : KernelA.State) (pcb : KernelA.PCB) (fd : Nat)
    (path : String) (pos : Nat) (mode : String) (d : String)
    (hfd : lookupL pcb.fdTable fd = some (.file path pos mode))
    (h1 : ¬ fd = 1) (h2 : ¬ fd = 2) :
    (KernelA.handleSyscall s pcb (.WRITE fd (.vstr d))).2 = .vint d.length ∧
    lookupL (KernelA.handleSyscall s pcb (.WRITE fd (.vstr d))).1.vfs path =
      some (if pos ≥ ((lookupL s.vfs path).getD "").length
        then ((lookupL s.vfs path).getD "") ++ d
        else ((lookupL s.vfs path).getD "").take pos ++ d ++
          ((lookupL s.vfs path).getD "").drop (pos + d.length)) ∧
    KernelA.findProc (KernelA.handleSyscall s pcb
        (.WRITE fd (.vstr d))).1 pcb.pid =
      (KernelA.findProc s pcb.pid).map (fun p =>
        {p with state := .ready,
                fdTable := setL p.fdTable fd
                  (.file path (pos + d.length) mode)}) := by
  have htext : (if (Value.vstr d).isNullish = true then Value.vstr ""
      else Value.vstr d).jsToString = d := rfl
  refine ⟨?_, ?_, ?_⟩
  · simp only [KernelA.handleSyscall]
    simp only [htext]
    rw [if_neg h1, if_neg h2, hfd]
  · simp only [KernelA.handleSyscall]
    simp only [htext]
    rw [if_neg h1, if_neg h2, hfd]
    dsimp only
    rw [KernelA.updA_vfs]
    dsimp only
    rw [lookupL_setL_self]
  · simp only [KernelA.handleSyscall]
    simp only [htext]
    rw [if_neg h1, if_neg h2, hfd]
    dsimp only
    rw [KernelA.findProc_updA _ pcb.pid
      (fun p => {p with state := .ready,
                        fdTable := setL p.fdTable fd
                          (.file path (pos + d.length) mode)})
      (fun _ => rfl)]
    rfl

/-- C8 witness: on "/f" = "hello", a write of "XY" at position 3 (fd 3)
returns 2, replaces the range [3, 5) ("helXY"), and moves the descriptor to
position 5. -/
theorem c8_witness :
    (KernelA.handleSyscall stateReaderA pcbReaderA (.WRITE 3 (.vstr "XY"))).2 =
      .vint ("XY".length) ∧
    lookupL (KernelA.handleSyscall stateReaderA pcbReaderA
        (.WRITE 3 (.vstr "XY"))).1.vfs "/f" =
      some (if (3 : Nat) ≥ ((lookupL stateReaderA.vfs "/f").getD "").length
        then ((lookupL stateReaderA.vfs "/f").getD "") ++ "XY"
        else ((lookupL stateReaderA.vfs "/f").getD "").take 3 ++ "XY" ++
          ((lookupL stateReaderA.vfs "/f").getD "").drop (3 + "XY".length)) ∧
    KernelA.findProc (KernelA.handleSyscall stateReaderA pcbReaderA
        (.WRITE 3 (.vstr "XY"))).1 pcbReaderA.pid =
      (KernelA.findProc stateReaderA pcbReaderA.pid).map (fun p =>
        {p with state := .ready,
                fdTable := setL p.fdTable 3
                  (.file "/f" (3 + "XY".length) "r")}) :=
  c8_write_overlap stateReaderA pcbReaderA 3 "/f" 3 "r" "XY" rfl
    (by decide) (by decide)


/-! ## C9 -/

theorem lookupL_filter_eq_none {β : Type} (l : List (Nat × β))
    (dead : List Nat) (k : Nat) (hk : dead.contains k = true) :
    lookupL (l.filter fun kv => ¬ dead.contains kv.1) k = none := by
  induction l with
  | nil => rfl
  | cons hd tl ih =>
    obtain ⟨k0, v0⟩ := hd
    by_cases h : dead.contains k0 = true
    · rw [List.filter_cons_of_neg (by simpa using h)]
      exact ih
    · have hne : k0 ≠ k := fun he => h (he ▸ hk)
      rw [List.filter_cons_of_pos (by simpa using h)]
      simp only [lookupL, if_neg hne]
      exact ih

theorem lookupL_filter_sat {α β : Type} [DecidableEq α] (l : List (α × β))
    (p : α × β → Bool) (k : α) (v : β)
    (h : lookupL (l.filter p) k = some v) : p (k, v) = true := by
  induction l with
  | nil => simp [lookupL] at h
  | cons hd tl ih =>
    obtain ⟨k0, v0⟩ := hd
    by_cases hp : p (k0, v0) = true
    · rw [List.filter_cons_of_pos hp] at h
      by_cases hk : k0 = k
      · simp only [lookupL, if_pos hk] at h
        obtain rfl := Option.some_inj.mp h
        rw [← hk]
        exact hp
      · simp only [lookupL, if_neg hk] at h
        exact ih h
    · rw [List.filter_cons_of_neg (by simpa using hp)] at h
      exact ih h

/-- C9 (amended, kernel A): after `cleanupTerminated`, no PCB with a
terminated pid remains, its mailbox is gone, and every surviving port has a
different owner.  (`src/kernel.js`'s `cleanupTerminated` only filters the
process table: mailboxes keyed by the killed pid and ports owned by it
survive, see the counterexample.) -/
theorem c9_cleanup_reaps_mailboxes_and_ports (s : KernelA.State)
    (p : KernelA.PCB) (hmem : p ∈ s.processes)
    (hterm : p.state = PState.terminated)
    (hsame : ∀ q ∈ s.processes, q.pid = p.pid →
      q.state = PState.terminated) :
    (∀ q ∈ (KernelA.cleanupTerminated s).processes, q.pid ≠ p.pid) ∧
    lookupL (KernelA.cleanupTerminated s).mailboxes p.pid = none ∧
    (∀ k e, lookupL (KernelA.cleanupTerminated s).ports k = some e →
      e.ownerPid ≠ p.pid) := by
  have hpidmem : p.pid ∈ (s.processes.filter fun q =>
      q.state = PState.terminated).map (·.pid) :=
    List.mem_map_of_mem _ (List.mem_filter.mpr ⟨hmem, by simp [hterm]⟩)
  have hdead : ((s.processes.filter fun q =>
      q.state = PState.terminated).map (·.pid)).contains p.pid = true := by
    simpa using hpidmem
  refine ⟨?_, ?_, ?_⟩
  · intro q hq hqp
    unfold KernelA.cleanupTerminated at hq
    dsimp only at hq
    obtain ⟨hqmem, hqlive⟩ := List.mem_filter.mp hq
    have := hsame q hqmem hqp
    simp [this] at hqlive
  · exact lookupL_filter_eq_none _ _ _ hdead
  · intro k e hke
    have hsat := lookupL_filter_sat _ _ k e hke
    intro howner
    rw [howner] at hsat
    have hnot := of_decide_eq_true hsat
    exact hnot hdead

/-- A terminated kernel-A PCB, pid 1, exit code −1 (as `kill` would leave
it). -/
def reapedPcbA : KernelA.PCB :=
  {readyPcbA 1 1 with state := .terminated, exitCode := some (-1)}

/-- A kernel-A state where the terminated pid 1 still has a mailbox and owns
port "5000". -/
def stateReapA : KernelA.State :=
  { tickMs := 50, time := 0, processes := [reapedPcbA],
    mailboxes := [(1, [MailMsg.mk 2 (.vstr "m") 0])], vfs := [],
    programs := [], ports := [("5000", ⟨1, []⟩)], logs := [],
    globalNextPid := 3, wallNow := 0 }

/-- C9 witness: reaping `stateReapA` removes the pid-1 PCB, its mailbox and
its port. -/
theorem c9_witness :
    (∀ q ∈ (KernelA.cleanupTerminated stateReapA).processes,
      q.pid ≠ reapedPcbA.pid) ∧
    lookupL (KernelA.cleanupTerminated stateReapA).mailboxes
      reapedPcbA.pid = none ∧
    (∀ k e, lookupL (KernelA.cleanupTerminated stateReapA).ports k = some e →
      e.ownerPid ≠ reapedPcbA.pid) :=
  c9_cleanup_reaps_mailboxes_and_ports stateReapA reapedPcbA
    (by simp [stateReapA]) rfl
    (by intro q hq _
        simp only [stateReapA, List.mem_singleton] at hq
        rw [hq]
        rfl)

/-- A kernel-B RUNNING PCB (pid 1) that will issue the kill. -/
def killerPcbB : KernelB.PCB :=
  { pid := 1, name := "killer", priority := 1, state := .running,
    blockReason := none, exitCode := none, routine := logOnceB,
    waitingFor := none, nextValue := .vundef, spawnTime := 0 }

/-- A kernel-B READY PCB (pid 2) that owns port 5000. -/
def victimPcbB : KernelB.PCB :=
  { pid := 2, name := "victim", priority := 1, state := .ready,
    blockReason := none, exitCode := none, routine := logOnceB,
    waitingFor := none, nextValue := .vundef, spawnTime := 0 }

/-- A kernel-B state: pid 1 alive, pid 2 owns port 5000 and has a mailbox. -/
def stateKillB : KernelB.State :=
  { tickMs := 50, timeMs := 0, processes := [killerPcbB, victimPcbB],
    nextPid := 3, logs := [], mailbox := [(2, [MsgB.mk 1 (.vstr "m")])],
    ports := [(5000, ⟨2, []⟩)], vfs := [], wallNow := 0 }

/-- C9 counterexample (kernel B, `src/kernel.js` lines 56–58 and 361–376):
after pid 1 kills pid 2 (TERMINATED, exit −1) and `cleanupTerminated` runs,
the pid-2 PCB is gone — but the port entry owned by pid 2 and the mailbox
keyed by pid 2 both remain, refuting the claim for this kernel. -/
theorem c9_counterexample :
    (KernelB.findPcb (KernelB.handleSyscall stateKillB killerPcbB
        (.KILL 2 "TERM")) 2).map (fun p => (p.state, p.exitCode)) =
      some (PState.terminated, some (-1)) ∧
    KernelB.findPcb (KernelB.cleanupTerminated
      (KernelB.handleSyscall stateKillB killerPcbB (.KILL 2 "TERM"))) 2 =
      none ∧
    lookupL (KernelB.cleanupTerminated
      (KernelB.handleSyscall stateKillB killerPcbB (.KILL 2 "TERM"))).ports
      5000 = some ⟨2, []⟩ ∧
    lookupL (KernelB.cleanupTerminated
      (KernelB.handleSyscall stateKillB killerPcbB (.KILL 2 "TERM"))).mailbox
      2 = some [MsgB.mk 1 (.vstr "m")] :=
  ⟨rfl, rfl, rfl, rfl⟩

/-! ## C10 — helper lemmas -/

namespace KernelA

/-- The fd-table invariant: every allocated descriptor is below the
per-process counter (so a fresh `nextFd` can never collide with a live or
previously closed descriptor). -/
def fdInv (p : PCB) : Prop :=
  ∀ fd, (lookupL p.fdTable fd).isSome = true → fd < p.nextFd

theorem fdInv_frame (p q : PCB) (hfd : q.fdTable = p.fdTable)
    (hn : q.nextFd = p.nextFd) (h : fdInv p) : fdInv q := by
  intro fd hl
  rw [hfd] at hl
  rw [hn]
  exact h fd hl

theorem lookupL_setL_isSome {α β : Type} [DecidableEq α]
    (l : List (α × β)) (k : α) (m : β) (k' : α)
    (h : (lookupL (setL l k m) k').isSome = true) :
    k' = k ∨ (lookupL l k').isSome = true := by
  by_cases hk : k' = k
  · exact Or.inl hk
  · right
    rw [lookupL_setL_other l k k' m (fun he => hk he.symm)] at h
    exact h

theorem fdInv_alloc (p : PCB) (m : FdEntry) (h : fdInv p) :
    fdInv {p with fdTable := setL p.fdTable p.nextFd m,
                  nextFd := p.nextFd + 1} := by
  intro fd hl
  dsimp only at hl ⊢
  rcases lookupL_setL_isSome _ _ _ _ hl with hk | hs
  · omega
  · have := h fd hs
    omega

theorem fdInv_setL_existing (p : PCB) (fd : Nat) (m : FdEntry) (h : fdInv p)
    (hs : (lookupL p.fdTable fd).isSome = true) :
    fdInv {p with fdTable := setL p.fdTable fd m} := by
  intro fd' hl
  dsimp only at hl ⊢
  rcases lookupL_setL_isSome _ _ _ _ hl with hk | hs' 
  · rw [hk]
    exact h fd hs
  · exact h fd' hs'

theorem lookupL_eraseL_isSome {α β : Type} [DecidableEq α]
    (l : List (α × β)) (k k' : α)
    (h : (lookupL (eraseL l k) k').isSome = true) :
    (lookupL l k').isSome = true := by
  induction l with
  | nil => simpa [eraseL] using h
  | cons hd tl ih =>
    obtain ⟨k0, v0⟩ := hd
    by_cases h0 : k0 = k
    · rw [eraseL, if_pos h0] at h
      by_cases h0' : k0 = k'
      · simp [lookupL, h0']
      · simp only [lookupL, if_neg h0']
        exact match hx : lookupL tl k' with
          | some _ => rfl
          | none => by rw [hx] at h; exact h
    · rw [eraseL, if_neg h0] at h
      by_cases h0' : k0 = k'
      · simp [lookupL, h0']
      · simp only [lookupL, if_neg h0'] at h ⊢
        exact ih h

theorem fdInv_close (p : PCB) (fd : Nat) (h : fdInv p) :
    fdInv {p with fdTable := eraseL p.fdTable fd} := by
  intro fd' hl
  dsimp only at hl ⊢
  exact h fd' (lookupL_eraseL_isSome _ _ _ hl)

theorem fdInv_std_table (p : PCB)
    (hfd : p.fdTable = [(0, .stdin), (1, .stdout), (2, .stderr)])
    (hn : p.nextFd = 3) : fdInv p := by
  intro fd hl
  rw [hfd] at hl
  rw [hn]
  simp only [lookupL] at hl
  split_ifs at hl with h0 h1 h2
  · omega
  · omega
  · omega
  · simp at hl

theorem mem_updA (s : State) (pid : Nat) (f : PCB → PCB) (q' : PCB)
    (h : q' ∈ (updA s pid f).processes) :
    ∃ q ∈ s.processes, (q.pid = pid ∧ q' = f q) ∨ (¬ q.pid = pid ∧ q' = q) := by
  unfold updA at h
  dsimp only at h
  obtain ⟨q, hq, hq'⟩ := List.mem_map.mp h
  refine ⟨q, hq, ?_⟩
  by_cases hp : q.pid = pid
  · left
    exact ⟨hp, by rw [← hq']; simp [hp]⟩
  · right
    exact ⟨hp, by rw [← hq']; simp [hp]⟩

/-- Invariant transport through `updA`: if every table entry satisfies
`fdInv` and the update function preserves it on the targeted pid, then every
entry of the updated table satisfies it. -/
theorem fdInv_updA (s : State) (pid : Nat) (f : PCB → PCB)
    (hinv : ∀ q ∈ s.processes, fdInv q)
    (hf : ∀ q ∈ s.processes, q.pid = pid → fdInv (f q)) :
    ∀ q' ∈ (updA s pid f).processes, fdInv q' := by
  intro q' hq'
  obtain ⟨q, hq, hcase⟩ := mem_updA s pid f q' hq'
  rcases hcase with ⟨hp, he⟩ | ⟨hp, he⟩
  · rw [he]
    exact hf q hq hp
  · rw [he]
    exact hinv q hq

/-- The `SEND` wake loop only changes scheduling fields: the output list is
pointwise pid/fdTable/nextFd-equal to the input. -/
theorem sendWakeLoop_forall2 (toPid : Nat) (l : List PCB)
    (mbs : List (Nat × List MailMsg)) :
    List.Forall₂ (fun q q' => q'.pid = q.pid ∧ q'.fdTable = q.fdTable ∧
      q'.nextFd = q.nextFd) l (sendWakeLoop toPid l mbs).1 := by
  induction l generalizing mbs with
  | nil => exact List.Forall₂.nil
  | cons hd tl ih =>
    simp only [sendWakeLoop]
    split
    · rcases htry : tryDeliverMessage mbs hd with ⟨delivered, mbs'⟩
      cases delivered <;> simp only [htry] <;>
        exact List.Forall₂.cons ⟨rfl, rfl, rfl⟩ (ih _)
    · exact List.Forall₂.cons ⟨rfl, rfl, rfl⟩ (ih _)

/-- The `SEND_PORT` wake loop only changes scheduling fields. -/
theorem portWakeLoop_forall2 (ownerPid : Nat) (key : String) (l : List PCB)
    (queue : List PortMsg) :
    List.Forall₂ (fun q q' => q'.pid = q.pid ∧ q'.fdTable = q.fdTable ∧
      q'.nextFd = q.nextFd) l (portWakeLoop ownerPid key l queue).1 := by
  induction l generalizing queue with
  | nil => exact List.Forall₂.nil
  | cons hd tl ih =>
    simp only [portWakeLoop]
    split
    · cases queue <;>
        exact List.Forall₂.cons ⟨rfl, rfl, rfl⟩ (ih _)
    · exact List.Forall₂.cons ⟨rfl, rfl, rfl⟩ (ih _)

theorem mem_forall2 {α : Type} {R : α → α → Prop} {l l' : List α}
    (h : List.Forall₂ R l l') (q' : α) (hq' : q' ∈ l') :
    ∃ q ∈ l, R q q' := by
  induction h with
  | nil => cases hq'
  | cons hR htl ih =>
    rcases List.mem_cons.mp hq' with rfl | hmem
    · exact ⟨_, List.mem_cons_self _ _, hR⟩
    · obtain ⟨q, hq, hRq⟩ := ih hmem
      exact ⟨q, List.mem_cons_of_mem _ hq, hRq⟩

/-- `find?` by pid through a pointwise pid/fdTable/nextFd-equal list gives
the same fdTable and nextFd. -/
theorem find_pid_proj {l l' : List PCB}
    (h : List.Forall₂ (fun q q' => q'.pid = q.pid ∧ q'.fdTable = q.fdTable ∧
      q'.nextFd = q.nextFd) l l') (pid : Nat) :
    Option.map (fun p => (p.fdTable, p.nextFd))
        (l'.find? fun p => p.pid = pid) =
      Option.map (fun p => (p.fdTable, p.nextFd))
        (l.find? fun p => p.pid = pid) := by
  induction h with
  | nil => rfl
  | cons hR htl ih =>
    rename_i a b tl tl'
    obtain ⟨hpid, hfd, hn⟩ := hR
    by_cases hp : a.pid = pid
    · rw [List.find?_cons_of_pos _ (by simp [hpid, hp]),
        List.find?_cons_of_pos _ (by simpa using hp)]
      simp [hfd, hn]
    · rw [List.find?_cons_of_neg _ (by simp [hpid, hp]),
        List.find?_cons_of_neg _ (by simpa using hp)]
      exact ih

end KernelA

/-- Every syscall dispatch preserves the fd-table invariant on every PCB of
the table (the only fd-table writers are `_allocFd` in `OPEN`, the position
updates of `READ`/`WRITE` on an existing descriptor, and the delete of
`CLOSE`). -/
theorem fdInv_handleSyscall (s : KernelA.State) (pcb : KernelA.PCB)
    (req : KernelA.SyscallReq)
    (hinv : ∀ q ∈ s.processes, KernelA.fdInv q)
    (huniq : ∀ q ∈ s.processes, q.pid = pcb.pid → q = pcb) :
    ∀ q' ∈ (KernelA.handleSyscall s pcb req).1.processes, KernelA.fdInv q' := by
  have hframe : ∀ (s' : KernelA.State),
      (∀ q ∈ s'.processes, KernelA.fdInv q) →
      ∀ (f : KernelA.PCB → KernelA.PCB),
      (∀ p, (f p).fdTable = p.fdTable ∧ (f p).nextFd = p.nextFd) →
      ∀ q' ∈ (KernelA.updA s' pcb.pid f).processes, KernelA.fdInv q' := by
    intro s' hinv' f hf
    exact KernelA.fdInv_updA s' pcb.pid f hinv' (fun q hq _ =>
      KernelA.fdInv_frame q (f q) (hf q).1 (hf q).2 (hinv' q hq))
  cases req with
  | SLEEP ms =>
    simp only [KernelA.handleSyscall]
    exact hframe s hinv _ (fun p => ⟨rfl, rfl⟩)
  | LOG msg =>
    simp only [KernelA.handleSyscall]
    exact hframe _ hinv _ (fun p => ⟨rfl, rfl⟩)
  | GETPID =>
    simp only [KernelA.handleSyscall]
    exact hframe s hinv _ (fun p => ⟨rfl, rfl⟩)
  | SEND toPid message =>
    simp only [KernelA.handleSyscall]
    have hwake : ∀ (mbs : List (Nat × List MailMsg)),
        ∀ q' ∈ (KernelA.sendWakeLoop toPid s.processes mbs).1,
          KernelA.fdInv q' := by
      intro mbs q' hq'
      obtain ⟨q, hq, _, hfd, hn⟩ :=
        KernelA.mem_forall2 (KernelA.sendWakeLoop_forall2 toPid s.processes mbs)
          q' hq'
      exact KernelA.fdInv_frame q q' hfd hn (hinv q hq)
    exact KernelA.fdInv_updA _ pcb.pid _ (fun q hq => hwake _ q hq)
      (fun q hq _ => KernelA.fdInv_frame q _ rfl rfl (hwake _ q hq))
  | RECV fromOpt =>
    simp only [KernelA.handleSyscall]
    split
    · exact hframe _ hinv _ (fun p => ⟨rfl, rfl⟩)
    · exact hframe _ hinv _ (fun p => ⟨rfl, rfl⟩)
  | OPEN path mode =>
    simp only [KernelA.handleSyscall]
    generalize (if mode = "" then "r" else mode) = m'
    split
    · split
      · exact hframe s hinv _ (fun p => ⟨rfl, rfl⟩)
      · exact KernelA.fdInv_updA _ _ _ hinv (fun q hq _ =>
          KernelA.fdInv_alloc q _ (hinv q hq))
    · split
      · exact KernelA.fdInv_updA _ _ _ hinv (fun q hq _ =>
          KernelA.fdInv_alloc q _ (hinv q hq))
      · split
        · exact KernelA.fdInv_updA _ _ _ hinv (fun q hq _ =>
            KernelA.fdInv_alloc q _ (hinv q hq))
        · exact hframe s hinv _ (fun p => ⟨rfl, rfl⟩)
  | READ fd n =>
    simp only [KernelA.handleSyscall]
    split
    · rename_i path pos mode heq
      split
      · exact hframe s hinv _ (fun p => ⟨rfl, rfl⟩)
      · apply KernelA.fdInv_updA _ _ _ hinv
        intro q hq hqp
        have he := huniq q hq hqp
        subst he
        exact KernelA.fdInv_setL_existing q fd _ (hinv q hq)
          (by rw [heq]; rfl)
    · exact hframe s hinv _ (fun p => ⟨rfl, rfl⟩)
  | WRITE fd data =>
    simp only [KernelA.handleSyscall]
    split
    · exact hframe s hinv _ (fun p => ⟨rfl, rfl⟩)
    · split
      · exact hframe s hinv _ (fun p => ⟨rfl, rfl⟩)
      · split
        · rename_i path pos mode heq
          apply KernelA.fdInv_updA _ _ _ hinv
          intro q hq hqp
          have he := huniq q hq hqp
          subst he
          exact KernelA.fdInv_setL_existing q fd _ (hinv q hq)
            (by rw [heq]; rfl)
        · exact hframe s hinv _ (fun p => ⟨rfl, rfl⟩)
  | CLOSE fd =>
    simp only [KernelA.handleSyscall]
    exact KernelA.fdInv_updA _ _ _ hinv (fun q hq _ =>
      KernelA.fdInv_close q fd (hinv q hq))
  | EXEC programName args =>
    simp only [KernelA.handleSyscall]
    split
    · exact hframe s hinv _ (fun p => ⟨rfl, rfl⟩)
    · exact hframe s hinv _ (fun p => ⟨rfl, rfl⟩)
  | EXIT code =>
    simp only [KernelA.handleSyscall]
    exact hframe s hinv _ (fun p => ⟨rfl, rfl⟩)
  | HEAP_SET key value =>
    simp only [KernelA.handleSyscall]
    exact hframe s hinv _ (fun p => ⟨rfl, rfl⟩)
  | HEAP_GET key =>
    simp only [KernelA.handleSyscall]
    exact hframe s hinv _ (fun p => ⟨rfl, rfl⟩)
  | LISTEN port =>
    simp only [KernelA.handleSyscall]
    split
    · exact hframe s hinv _ (fun p => ⟨rfl, rfl⟩)
    · exact hframe _ hinv _ (fun p => ⟨rfl, rfl⟩)
  | UNLISTEN port =>
    simp only [KernelA.handleSyscall]
    split
    · split
      · exact hframe _ hinv _ (fun p => ⟨rfl, rfl⟩)
      · exact hframe s hinv _ (fun p => ⟨rfl, rfl⟩)
    · exact hframe s hinv _ (fun p => ⟨rfl, rfl⟩)
  | SEND_PORT port payload =>
    simp only [KernelA.handleSyscall]
    split
    · exact hframe s hinv _ (fun p => ⟨rfl, rfl⟩)
    · rename_i e heq
      have hwake : ∀ (queue : List PortMsg),
          ∀ q' ∈ (KernelA.portWakeLoop e.ownerPid
            (KernelA.normalizePortKey port) s.processes queue).1,
            KernelA.fdInv q' := by
        intro queue q' hq'
        obtain ⟨q, hq, _, hfd, hn⟩ :=
          KernelA.mem_forall2 (KernelA.portWakeLoop_forall2 e.ownerPid
            (KernelA.normalizePortKey port) s.processes queue) q' hq'
        exact KernelA.fdInv_frame q q' hfd hn (hinv q hq)
      exact KernelA.fdInv_updA _ pcb.pid _ (fun q hq => hwake _ q hq)
        (fun q hq _ => KernelA.fdInv_frame q _ rfl rfl (hwake _ q hq))
  | RECV_PORT port timeoutMs =>
    simp only [KernelA.handleSyscall]
    split
    · exact hframe s hinv _ (fun p => ⟨rfl, rfl⟩)
    · split
      · exact hframe s hinv _ (fun p => ⟨rfl, rfl⟩)
      · split
        · exact hframe s hinv _ (fun p => ⟨rfl, rfl⟩)
        · exact hframe _ hinv _ (fun p => ⟨rfl, rfl⟩)
  | SPAWN programName args priority =>
    simp only [KernelA.handleSyscall]
    split
    · exact hframe s hinv _ (fun p => ⟨rfl, rfl⟩)
    · rename_i prog heq
      have happ : ∀ q ∈ (KernelA.spawn s prog programName
          (priority.getD 1) args).1.processes, KernelA.fdInv q := by
        intro q hq
        rcases List.mem_append.mp hq with h | h
        · exact hinv q h
        · rw [List.mem_singleton.mp h]
          exact KernelA.fdInv_std_table _ rfl rfl
      exact KernelA.fdInv_updA _ _ _ happ (fun q hq _ =>
        KernelA.fdInv_frame q _ rfl rfl (happ q hq))
  | KINFO kind =>
    simp only [KernelA.handleSyscall]
    split_ifs
    · exact hframe s hinv _ (fun p => ⟨rfl, rfl⟩)
    · exact hframe s hinv _ (fun p => ⟨rfl, rfl⟩)
    · exact hframe s hinv _ (fun p => ⟨rfl, rfl⟩)
    · exact hframe s hinv _ (fun p => ⟨rfl, rfl⟩)
  | UNKNOWN tag =>
    simp only [KernelA.handleSyscall]
    exact hframe s hinv _ (fun p => ⟨rfl, rfl⟩)

/-- No syscall ever decreases the caller's `nextFd` counter (`_allocFd`
increments it; `CLOSE` does not touch it). -/
theorem nextFd_mono_handleSyscall (s : KernelA.State) (pcb : KernelA.PCB)
    (req : KernelA.SyscallReq)
    (huniq : ∀ q ∈ s.processes, q.pid = pcb.pid → q = pcb)
    (hpid : pcb.pid < s.globalNextPid) :
    ∀ q' ∈ (KernelA.handleSyscall s pcb req).1.processes,
      q'.pid = pcb.pid → pcb.nextFd ≤ q'.nextFd := by
  have hbase : ∀ q ∈ s.processes, q.pid = pcb.pid → q.nextFd = pcb.nextFd :=
    fun q hq hp => by rw [huniq q hq hp]
  have hmono : ∀ (s' : KernelA.State),
      (∀ q ∈ s'.processes, q.pid = pcb.pid → q.nextFd = pcb.nextFd) →
      ∀ (f : KernelA.PCB → KernelA.PCB),
      (∀ p, (f p).pid = p.pid ∧ p.nextFd ≤ (f p).nextFd) →
      ∀ q' ∈ (KernelA.updA s' pcb.pid f).processes,
        q'.pid = pcb.pid → pcb.nextFd ≤ q'.nextFd := by
    intro s' hb f hf q' hq' hqp
    obtain ⟨q, hq, hcase⟩ := KernelA.mem_updA s' pcb.pid f q' hq'
    rcases hcase with ⟨hp, he⟩ | ⟨hp, he⟩
    · rw [he]
      calc pcb.nextFd = q.nextFd := (hb q hq hp).symm
        _ ≤ (f q).nextFd := (hf q).2
    · rw [he] at hqp
      exact absurd hqp hp
  cases req with
  | SLEEP ms =>
    simp only [KernelA.handleSyscall]
    exact hmono s hbase _ (fun p => ⟨rfl, le_refl _⟩)
  | LOG msg =>
    simp only [KernelA.handleSyscall]
    exact hmono _ hbase _ (fun p => ⟨rfl, le_refl _⟩)
  | GETPID =>
    simp only [KernelA.handleSyscall]
    exact hmono s hbase _ (fun p => ⟨rfl, le_refl _⟩)
  | SEND toPid message =>
    simp only [KernelA.handleSyscall]
    have hb2 : ∀ (mbs : List (Nat × List MailMsg)),
        ∀ q ∈ (KernelA.sendWakeLoop toPid s.processes mbs).1,
          q.pid = pcb.pid → q.nextFd = pcb.nextFd := by
      intro mbs q hq hp
      obtain ⟨q0, hq0, hpid0, _, hn0⟩ :=
        KernelA.mem_forall2 (KernelA.sendWakeLoop_forall2 toPid s.processes mbs)
          q hq
      have hq0p : q0.pid = pcb.pid := by rw [← hpid0]; exact hp
      rw [hn0, hbase q0 hq0 hq0p]
    exact hmono _ (hb2 _) _ (fun p => ⟨rfl, le_refl _⟩)
  | RECV fromOpt =>
    simp only [KernelA.handleSyscall]
    split
    · exact hmono _ hbase _ (fun p => ⟨rfl, le_refl _⟩)
    · exact hmono _ hbase _ (fun p => ⟨rfl, le_refl _⟩)
  | OPEN path mode =>
    simp only [KernelA.handleSyscall]
    generalize (if mode = "" then "r" else mode) = m'
    split
    · split
      · exact hmono s hbase _ (fun p => ⟨rfl, le_refl _⟩)
      · exact hmono s hbase _ (fun p => ⟨rfl, Nat.le_succ _⟩)
    · split
      · exact hmono _ hbase _ (fun p => ⟨rfl, Nat.le_succ _⟩)
      · split
        · exact hmono _ hbase _ (fun p => ⟨rfl, Nat.le_succ _⟩)
        · exact hmono s hbase _ (fun p => ⟨rfl, le_refl _⟩)
  | READ fd n =>
    simp only [KernelA.handleSyscall]
    split
    · split
      · exact hmono s hbase _ (fun p => ⟨rfl, le_refl _⟩)
      · exact hmono s hbase _ (fun p => ⟨rfl, le_refl _⟩)
    · exact hmono s hbase _ (fun p => ⟨rfl, le_refl _⟩)
  | WRITE fd data =>
    simp only [KernelA.handleSyscall]
    split
    · exact hmono s hbase _ (fun p => ⟨rfl, le_refl _⟩)
    · split
      · exact hmono s hbase _ (fun p => ⟨rfl, le_refl _⟩)
      · split
        · exact hmono _ hbase _ (fun p => ⟨rfl, le_refl _⟩)
        · exact hmono s hbase _ (fun p => ⟨rfl, le_refl _⟩)
  | CLOSE fd =>
    simp only [KernelA.handleSyscall]
    exact hmono s hbase _ (fun p => ⟨rfl, le_refl _⟩)
  | EXEC programName args =>
    simp only [KernelA.handleSyscall]
    split
    · exact hmono s hbase _ (fun p => ⟨rfl, le_refl _⟩)
    · exact hmono s hbase _ (fun p => ⟨rfl, le_refl _⟩)
  | EXIT code =>
    simp only [KernelA.handleSyscall]
    exact hmono s hbase _ (fun p => ⟨rfl, le_refl _⟩)
  | HEAP_SET key value =>
    simp only [KernelA.handleSyscall]
    exact hmono s hbase _ (fun p => ⟨rfl, le_refl _⟩)
  | HEAP_GET key =>
    simp only [KernelA.handleSyscall]
    exact hmono s hbase _ (fun p => ⟨rfl, le_refl _⟩)
  | LISTEN port =>
    simp only [KernelA.handleSyscall]
    split
    · exact hmono s hbase _ (fun p => ⟨rfl, le_refl _⟩)
    · exact hmono _ hbase _ (fun p => ⟨rfl, le_refl _⟩)
  | UNLISTEN port =>
    simp only [KernelA.handleSyscall]
    split
    · split
      · exact hmono _ hbase _ (fun p => ⟨rfl, le_refl _⟩)
      · exact hmono s hbase _ (fun p => ⟨rfl, le_refl _⟩)
    · exact hmono s hbase _ (fun p => ⟨rfl, le_refl _⟩)
  | SEND_PORT port payload =>
    simp only [KernelA.handleSyscall]
    split
    · exact hmono s hbase _ (fun p => ⟨rfl, le_refl _⟩)
    · rename_i e heq
      have hb2 : ∀ (queue : List PortMsg),
          ∀ q ∈ (KernelA.portWakeLoop e.ownerPid
            (KernelA.normalizePortKey port) s.processes queue).1,
            q.pid = pcb.pid → q.nextFd = pcb.nextFd := by
        intro queue q hq hp
        obtain ⟨q0, hq0, hpid0, _, hn0⟩ :=
          KernelA.mem_forall2 (KernelA.portWakeLoop_forall2 e.ownerPid
            (KernelA.normalizePortKey port) s.processes queue) q hq
        have hq0p : q0.pid = pcb.pid := by rw [← hpid0]; exact hp
        rw [hn0, hbase q0 hq0 hq0p]
      exact hmono _ (hb2 _) _ (fun p => ⟨rfl, le_refl _⟩)
  | RECV_PORT port timeoutMs =>
    simp only [KernelA.handleSyscall]
    split
    · exact hmono s hbase _ (fun p => ⟨rfl, le_refl _⟩)
    · split
      · exact hmono s hbase _ (fun p => ⟨rfl, le_refl _⟩)
      · split
        · exact hmono s hbase _ (fun p => ⟨rfl, le_refl _⟩)
        · exact hmono _ hbase _ (fun p => ⟨rfl, le_refl _⟩)
  | SPAWN programName args priority =>
    simp only [KernelA.handleSyscall]
    split
    · exact hmono s hbase _ (fun p => ⟨rfl, le_refl _⟩)
    · rename_i prog heq
      have hb3 : ∀ q ∈ (KernelA.spawn s prog programName
          (priority.getD 1) args).1.processes,
          q.pid = pcb.pid → q.nextFd = pcb.nextFd := by
        intro q hq hp
        rcases List.mem_append.mp hq with h | h
        · exact hbase q h hp
        · rw [List.mem_singleton.mp h] at hp
          exact absurd hp (by simp; omega)
      exact hmono _ hb3 _ (fun p => ⟨rfl, le_refl _⟩)
  | KINFO kind =>
    simp only [KernelA.handleSyscall]
    split_ifs
    · exact hmono s hbase _ (fun p => ⟨rfl, le_refl _⟩)
    · exact hmono s hbase _ (fun p => ⟨rfl, le_refl _⟩)
    · exact hmono s hbase _ (fun p => ⟨rfl, le_refl _⟩)
    · exact hmono s hbase _ (fun p => ⟨rfl, le_refl _⟩)
  | UNKNOWN tag =>
    simp only [KernelA.handleSyscall]
    exact hmono s hbase _ (fun p => ⟨rfl, le_refl _⟩)

/-- A successful `OPEN` returns exactly the caller's `nextFd` — a descriptor
never before allocated (it is absent from the table whenever the fd
invariant holds) — and bumps the counter to `nextFd + 1`. -/
theorem open_allocates (s : KernelA.State) (pcb : KernelA.PCB)
    (path mode : String) (fdv : Int) (hinv : KernelA.fdInv pcb)
    (hfind : KernelA.findProc s pcb.pid = some pcb)
    (hres : (KernelA.handleSyscall s pcb (.OPEN path mode)).2 = .vint fdv)
    (hnn : 0 ≤ fdv) :
    fdv = pcb.nextFd ∧ lookupL pcb.fdTable pcb.nextFd = none ∧
    (KernelA.findProc (KernelA.handleSyscall s pcb (.OPEN path mode)).1
      pcb.pid).map (fun p => p.nextFd) = some (pcb.nextFd + 1) := by
  have hnone : lookupL pcb.fdTable pcb.nextFd = none := by
    cases h : lookupL pcb.fdTable pcb.nextFd with
    | none => rfl
    | some e => exact absurd (hinv pcb.nextFd (by rw [h]; rfl)) (lt_irrefl _)
  simp only [KernelA.handleSyscall] at hres ⊢
  by_cases hr : (if mode = "" then "r" else mode) = "r"
  · rw [if_pos hr] at hres ⊢
    rw [hr] at hres ⊢
    cases hvfs : lookupL s.vfs path with
    | none =>
      exfalso
      rw [hvfs] at hres
      dsimp only at hres
      injection hres with h
      omega
    | some c =>
      rw [hvfs] at hres
      dsimp only at hres
      injection hres with h
      refine ⟨h.symm, hnone, ?_⟩
      rw [KernelA.findProc_updA s pcb.pid
        (fun p => {p with state := .ready,
                          fdTable := setL p.fdTable p.nextFd (.file path 0 "r"),
                          nextFd := p.nextFd + 1})
        (fun _ => rfl), hfind]
      rfl
  · rw [if_neg hr] at hres ⊢
    by_cases hw : (if mode = "" then "r" else mode) = "w"
    · rw [if_pos hw] at hres ⊢
      dsimp only at hres
      injection hres with h
      refine ⟨h.symm, hnone, ?_⟩
      have hfind' : KernelA.findProc {s with vfs := setL s.vfs path ""}
          pcb.pid = some pcb := hfind
      rw [KernelA.findProc_updA {s with vfs := setL s.vfs path ""} pcb.pid
        (fun p => {p with state := .ready,
                          fdTable := setL p.fdTable p.nextFd
                            (.file path 0 (if mode = "" then "r" else mode)),
                          nextFd := p.nextFd + 1})
        (fun _ => rfl), hfind']
      rfl
    · rw [if_neg hw] at hres ⊢
      by_cases ha : (if mode = "" then "r" else mode) = "a"
      · rw [if_pos ha] at hres ⊢
        dsimp only at hres
        injection hres with h
        refine ⟨h.symm, hnone, ?_⟩
        have hfind' : KernelA.findProc
            {s with vfs := setL s.vfs path ((lookupL s.vfs path).getD "")}
            pcb.pid = some pcb := hfind
        rw [KernelA.findProc_updA
          {s with vfs := setL s.vfs path ((lookupL s.vfs path).getD "")}
          pcb.pid
          (fun p => {p with state := .ready,
                            fdTable := setL p.fdTable p.nextFd
                              (.file path ((lookupL s.vfs path).getD "").length
                                (if mode = "" then "r" else mode)),
                            nextFd := p.nextFd + 1})
          (fun _ => rfl), hfind']
        rfl
      · exfalso
        rw [if_neg ha] at hres
        dsimp only at hres
        injection hres with h
        omega

/-- `CLOSE` only deletes the table entry: the caller goes READY with the fd
removed and everything else — in particular `nextFd` — unchanged. -/
theorem close_only_deletes (s : KernelA.State) (pcb : KernelA.PCB) (fd : Nat)
    (hfind : KernelA.findProc s pcb.pid = some pcb) :
    KernelA.findProc (KernelA.handleSyscall s pcb (.CLOSE fd)).1 pcb.pid =
      some {pcb with state := .ready, fdTable := eraseL pcb.fdTable fd} := by
  simp only [KernelA.handleSyscall]
  rw [KernelA.findProc_updA s pcb.pid
    (fun p => {p with state := .ready, fdTable := eraseL p.fdTable fd})
    (fun _ => rfl), hfind]
  rfl

/-- C10: file descriptors are allocated from the per-process `nextFd`
counter (initialized to 3 with fds 0–2 preallocated) and never reused:
every syscall keeps all allocated descriptors below the counter and never
decreases it; a successful `open` returns exactly `nextFd` — which the fd
invariant guarantees was never in the table — and increments the counter;
`close` only deletes the table entry, leaving the counter alone.  Hence the
descriptors returned by `open` are strictly increasing over a process's
lifetime and a closed descriptor's number is never handed out again. -/
theorem c10_fds_strictly_increasing_never_reused :
    (∀ (s : KernelA.State) (pcb : KernelA.PCB) (req : KernelA.SyscallReq),
      (∀ q ∈ s.processes, KernelA.fdInv q) →
      (∀ q ∈ s.processes, q.pid = pcb.pid → q = pcb) →
      ∀ q' ∈ (KernelA.handleSyscall s pcb req).1.processes,
        KernelA.fdInv q') ∧
    (∀ (s : KernelA.State) (pcb : KernelA.PCB) (req : KernelA.SyscallReq),
      (∀ q ∈ s.processes, q.pid = pcb.pid → q = pcb) →
      pcb.pid < s.globalNextPid →
      ∀ q' ∈ (KernelA.handleSyscall s pcb req).1.processes,
        q'.pid = pcb.pid → pcb.nextFd ≤ q'.nextFd) ∧
    (∀ (s : KernelA.State) (pcb : KernelA.PCB) (path mode : String)
      (fdv : Int), KernelA.fdInv pcb →
      KernelA.findProc s pcb.pid = some pcb →
      (KernelA.handleSyscall s pcb (.OPEN path mode)).2 = .vint fdv →
      0 ≤ fdv →
      fdv = pcb.nextFd ∧ lookupL pcb.fdTable pcb.nextFd = none ∧
      (KernelA.findProc (KernelA.handleSyscall s pcb (.OPEN path mode)).1
        pcb.pid).map (fun p => p.nextFd) = some (pcb.nextFd + 1)) ∧
    (∀ (s : KernelA.State) (pcb : KernelA.PCB) (fd : Nat),
      KernelA.findProc s pcb.pid = some pcb →
      KernelA.findProc (KernelA.handleSyscall s pcb (.CLOSE fd)).1 pcb.pid =
        some {pcb with state := .ready,
                       fdTable := eraseL pcb.fdTable fd}) :=
  ⟨fdInv_handleSyscall, nextFd_mono_handleSyscall, open_allocates,
   close_only_deletes⟩

/-- C10 witness: in `stateReaderA` (single process, fds 0–3 live,
`nextFd = 4`), a `LOG` dispatch preserves the invariant and the counter,
`open("/f", "r")` returns fd 4 (absent from the table) and bumps the counter
to 5, and `close(3)` merely erases fd 3. -/
theorem c10_witness :
    (∀ q' ∈ (KernelA.handleSyscall stateReaderA pcbReaderA
      (.LOG (.vstr "x"))).1.processes, KernelA.fdInv q') ∧
    (∀ q' ∈ (KernelA.handleSyscall stateReaderA pcbReaderA
      (.LOG (.vstr "x"))).1.processes,
      q'.pid = pcbReaderA.pid → pcbReaderA.nextFd ≤ q'.nextFd) ∧
    ((4 : Int) = pcbReaderA.nextFd ∧
     lookupL pcbReaderA.fdTable pcbReaderA.nextFd = none ∧
     (KernelA.findProc (KernelA.handleSyscall stateReaderA pcbReaderA
       (.OPEN "/f" "r")).1 pcbReaderA.pid).map (fun p => p.nextFd) =
       some (pcbReaderA.nextFd + 1)) ∧
    (KernelA.findProc (KernelA.handleSyscall stateReaderA pcbReaderA
        (.CLOSE 3)).1 pcbReaderA.pid =
      some {pcbReaderA with state := .ready,
                            fdTable := eraseL pcbReaderA.fdTable 3}) := by
  have hfdinv : KernelA.fdInv pcbReaderA := by
    intro fd h
    simp only [pcbReaderA, lookupL] at h
    show fd < 4
    split_ifs at h with h0 h1 h2 h3
    · omega
    · omega
    · omega
    · omega
    · simp at h
  have hinv : ∀ q ∈ stateReaderA.processes, KernelA.fdInv q := by
    intro q hq
    simp only [stateReaderA, List.mem_singleton] at hq
    rw [hq]
    exact hfdinv
  have huniq : ∀ q ∈ stateReaderA.processes, q.pid = pcbReaderA.pid →
      q = pcbReaderA := by
    intro q hq _
    simp only [stateReaderA, List.mem_singleton] at hq
    exact hq
  exact ⟨c10_fds_strictly_increasing_never_reused.1 stateReaderA pcbReaderA
      (.LOG (.vstr "x")) hinv huniq,
    c10_fds_strictly_increasing_never_reused.2.1 stateReaderA pcbReaderA
      (.LOG (.vstr "x")) huniq (by decide),
    c10_fds_strictly_increasing_never_reused.2.2.1 stateReaderA pcbReaderA
      "/f" "r" 4 hfdinv rfl rfl (by decide),
    c10_fds_strictly_increasing_never_reused.2.2.2 stateReaderA pcbReaderA 3
      rfl⟩
